import Mathlib

/-!
# Kernel binary header decoding (`runtime/vm/kernel_binary.cc`)

A shallow embedding of `Program::ReadFrom` and `Program::ReadFromTypedData`
together with the part of `Reader` they use, followed by theorems about the
decode: size / magic / version validation, the backward trailer walk that
tells a single program from concatenated ones, and the tail index reads.

Conventions of the embedding.

* A byte range is a `List (Fin 256)`.
* `intptr_t` is 64 bits wide: offsets and sizes are `Int`, a value read by
  `ReadUInt32` is a `Nat` below `2 ^ 32`, and no offset computation of
  `ReadFrom` can overflow (every operand is below `2 ^ 36`).
* `const char** error` is an `Option String`: `none` is a null pointer,
  `some s` a slot currently holding `s`.
* A 4-byte read outside the byte range has no defined behaviour in C++; the
  embedding stops there with the outcome `outOfRange`.
* `Reader.reads` is a ghost log of the positions of the 4-byte reads
  performed so far. Nothing branches on it.
-/

namespace dart.kernel

/-! ## Constants -/

/-- Format constants declared in `vm/kernel_binary.h` with values that the
translation unit does not show. They are kept as parameters. -/
structure KernelConstants where
  kMagicProgramFile : Nat
  kMinSupportedKernelFormatVersion : Nat
  kMaxSupportedKernelFormatVersion : Nat
deriving DecidableEq

/-- Modelled from the spec: `LibraryCountFieldCountFromEnd` is declared in
`vm/kernel_binary.h`; the tail index keeps `library_count` one 4-byte field
before the trailer, so the constant is `1`. -/
def LibraryCountFieldCountFromEnd : Int := 1

/-- Modelled from the spec: `SourceTableFieldCountFromFirstLibraryOffset` is
declared in `vm/kernel_binary.h`; six 4-byte fields separate the source table
offset from the first library offset, so the constant is `6`. -/
def SourceTableFieldCountFromFirstLibraryOffset : Int := 6

def kKernelInvalidFilesize : String :=
  "File size is too small to be a valid kernel file"

def kKernelInvalidMagicIdentifier : String := "Invalid magic identifier"

def kKernelInvalidBinaryFormatVersion : String :=
  "Invalid kernel binary format version"

def kKernelInvalidSizeIndicated : String :=
  "Invalid kernel binary: Indicated size is invalid"

/-! ## Reader -/

/-- Byte `i` of a byte range as a number (`0` past the end; every use below is
guarded by a bounds test). -/
def byteAt (buffer : List (Fin 256)) (i : Nat) : Nat :=
  match buffer[i]? with
  | some b => b.val
  | none => 0

/-- Big-endian unsigned 32-bit value of bytes `p .. p+3`. -/
def u32 (buffer : List (Fin 256)) (p : Nat) : Nat :=
  byteAt buffer p * 2 ^ 24 + byteAt buffer (p + 1) * 2 ^ 16 +
    byteAt buffer (p + 2) * 2 ^ 8 + byteAt buffer (p + 3)

/-- Modelled from the spec: class `Reader` is declared in
`vm/kernel_binary.h`. It wraps a read-only byte range of known length and a
sequential cursor; `reads` is the ghost log of read positions. -/
structure Reader where
  typed_data : List (Fin 256)
  offset_ : Int
  reads : List Int
deriving DecidableEq

/-- Modelled from the spec: the constructor `Reader(typed_data)`, with the
cursor at the start of the range. -/
def Reader.ofTypedData (typed_data : List (Fin 256)) : Reader :=
  { typed_data := typed_data, offset_ := 0, reads := [] }

/-- Modelled from the spec: `Reader::size()`, the total byte length. -/
def Reader.size (r : Reader) : Int := r.typed_data.length

/-- Modelled from the spec: `Reader::offset()`. -/
def Reader.offset (r : Reader) : Int := r.offset_

/-- Modelled from the spec: `Reader::set_offset`, which sets the cursor
directly, forwards or backwards. -/
def Reader.set_offset (r : Reader) (offset : Int) : Reader :=
  { r with offset_ := offset }

/-- Modelled from the spec: the 4-byte big-endian read at an absolute
position, defined only when `0 ≤ offset` and `offset + 4 ≤ size`. -/
def Reader.ReadUInt32At (r : Reader) (offset : Int) : Option Nat :=
  if 0 ≤ offset ∧ offset + 4 ≤ r.size then some (u32 r.typed_data offset.toNat)
  else none

/-- Modelled from the spec: `Reader::ReadUInt32`, which reads 4 bytes at the
cursor in big-endian order and advances the cursor by 4. The value is `none`
when the read is outside the range. -/
def Reader.ReadUInt32 (r : Reader) : Option Nat × Reader :=
  (r.ReadUInt32At r.offset_,
    { r with offset_ := r.offset_ + 4, reads := r.reads ++ [r.offset_] })

/-- Modelled from the spec: `Reader::ReadFromIndexNoReset`, the read of one
field of a table of 4-byte fields stored contiguously and ending at
`end_offset`. The cursor moves to
`end_offset - (fields_before + list_size - list_index) * 4`, one field is read
there, and the cursor is left after it (no reset). With the two calls of
`ReadFrom` this puts `library_count` at `size - 8`, just before the trailer,
and `source_table_offset` at `size - 4 * (library_count + 10)`. -/
def Reader.ReadFromIndexNoReset (r : Reader)
    (end_offset fields_before list_size list_index : Int) : Option Nat × Reader :=
  (r.set_offset (end_offset - (fields_before + list_size - list_index) * 4)).ReadUInt32

/-! ## Program -/

/-- Modelled from the spec: `NameIndex` is declared in `vm/kernel_binary.h`.
It holds the 32-bit value it was built from; `value_` is that value as an
unsigned residue. -/
structure NameIndex where
  value_ : Nat
deriving DecidableEq

/-- Modelled from the spec: the designated absent value `NameIndex(-1)`, which
is what the unsigned `0 - 1` wraps to: the 32-bit pattern of `-1`. -/
def NameIndex.kInvalidName : NameIndex := ⟨2 ^ 32 - 1⟩

/-- The fields of `Program` that `ReadFrom` writes. -/
structure Program where
  binary_version_ : Nat
  kernel_data_ : List (Fin 256)
  single_program_ : Bool
  library_count_ : Int
  source_table_offset_ : Int
  name_table_offset_ : Int
  metadata_payloads_offset_ : Int
  metadata_mappings_offset_ : Int
  string_table_offset_ : Int
  constant_table_offset_ : Int
  main_method_reference_ : NameIndex
deriving DecidableEq

/-- Modelled from the spec: the `Program` shell that `new Program()`
allocates. `ReadFrom` overwrites every field before it returns the object. -/
def Program.new : Program :=
  { binary_version_ := 0, kernel_data_ := [], single_program_ := false,
    library_count_ := 0, source_table_offset_ := 0, name_table_offset_ := 0,
    metadata_payloads_offset_ := 0, metadata_mappings_offset_ := 0,
    string_table_offset_ := 0, constant_table_offset_ := 0,
    main_method_reference_ := NameIndex.kInvalidName }

/-- How a call of `ReadFrom` ends: it returns (a `Program` or `nullptr`,
the error slot, and the reader as it is left), or it performs a 4-byte read
outside the byte range. -/
inductive Outcome where
  | returned (program : Option Program) (error : Option String) (reader : Reader)
  | outOfRange (reader : Reader)
deriving DecidableEq

/-- The statement `if (error != nullptr) *error = message;`. -/
def setError (error : Option String) (message : String) : Option String :=
  error.map fun _ => message

/-- Sequencing of a 4-byte read: the rest of the function runs on the value
read, unless the read was outside the range. -/
def withRead (res : Option Nat × Reader) (rest : Nat → Reader → Outcome) : Outcome :=
  match res with
  | (none, r) => .outOfRange r
  | (some value, r) => rest value r

/-- How the `while` loop of `ReadFrom` ends. -/
inductive WalkResult where
  | finished (reader : Reader) (subprogram_count : Nat)
  | invalidSize (reader : Reader)
  | outOfRange (reader : Reader)
deriving DecidableEq

/-- The loop `while (reader->offset() > 0) { ... }` of `ReadFrom` (source lines
88 to 101), started with the given reader and counter. -/
def trailerWalk (reader : Reader) (subprogram_count : Nat) : WalkResult :=
  if 0 < reader.offset then
    match reader.ReadUInt32 with
    | (none, r1) => .outOfRange r1
    | (some size, r1) =>
      let start : Int := r1.offset - (size : Int)
      if start < 0 then .invalidSize r1
      else if h : 1 < subprogram_count + 1 then .finished r1 (subprogram_count + 1)
      else trailerWalk (r1.set_offset (start - 4)) (subprogram_count + 1)
  else .finished reader subprogram_count
termination_by 2 - subprogram_count
decreasing_by omega

/-- The tail index reads of `ReadFrom` (source lines 104 to 120): the fields
are stored into `program`, which is then returned. -/
def readTailIndex (program : Program) (reader : Reader) (error : Option String) :
    Outcome :=
  withRead (reader.ReadFromIndexNoReset reader.size
    LibraryCountFieldCountFromEnd 1 0) fun library_count reader =>
  let program := { program with library_count_ := library_count }
  withRead (reader.ReadFromIndexNoReset reader.size
    (LibraryCountFieldCountFromEnd + 1 + program.library_count_ + 1 +
      SourceTableFieldCountFromFirstLibraryOffset) 1 0)
    fun source_table_offset reader =>
  let program := { program with source_table_offset_ := source_table_offset }
  withRead reader.ReadUInt32 fun name_table_offset reader =>
  let program := { program with name_table_offset_ := name_table_offset }
  withRead reader.ReadUInt32 fun metadata_payloads_offset reader =>
  let program :=
    { program with metadata_payloads_offset_ := metadata_payloads_offset }
  withRead reader.ReadUInt32 fun metadata_mappings_offset reader =>
  let program :=
    { program with metadata_mappings_offset_ := metadata_mappings_offset }
  withRead reader.ReadUInt32 fun string_table_offset reader =>
  let program := { program with string_table_offset_ := string_table_offset }
  withRead reader.ReadUInt32 fun constant_table_offset reader =>
  let program := { program with constant_table_offset_ := constant_table_offset }
  withRead reader.ReadUInt32 fun raw reader =>
  let program :=
    { program with
      main_method_reference_ := NameIndex.mk ((raw + 2 ^ 32 - 1) % 2 ^ 32) }
  .returned (some program) error reader

/-- The function `Program::ReadFrom(Reader* reader, const char** error)`: the size, magic
and version checks (source lines 41 to 77), the allocation (79 to 82), the
trailer walk (86 to 102) and the tail index reads (104 to 120). -/
def Program.ReadFrom (k : KernelConstants) (reader : Reader) (error : Option String) :
    Outcome :=
  if reader.size < 60 then
    .returned none (setError error kKernelInvalidFilesize) reader
  else
    withRead reader.ReadUInt32 fun magic reader =>
    if magic ≠ k.kMagicProgramFile then
      .returned none (setError error kKernelInvalidMagicIdentifier) reader
    else
      withRead reader.ReadUInt32 fun formatVersion reader =>
      if formatVersion < k.kMinSupportedKernelFormatVersion ∨
          formatVersion > k.kMaxSupportedKernelFormatVersion then
        .returned none (setError error kKernelInvalidBinaryFormatVersion) reader
      else
        let program : Program :=
          { Program.new with
            binary_version_ := formatVersion, kernel_data_ := reader.typed_data }
        match trailerWalk (reader.set_offset (reader.size - 4)) 0 with
        | .outOfRange reader => .outOfRange reader
        | .invalidSize reader =>
          .returned none (setError error kKernelInvalidSizeIndicated) reader
        | .finished reader subprogram_count =>
          readTailIndex { program with single_program_ := subprogram_count == 1 }
            reader error

/-- The function `Program::ReadFromTypedData(typed_data, error)`: a fresh reader over the
byte range, then `ReadFrom`. -/
def Program.ReadFromTypedData (k : KernelConstants) (typed_data : List (Fin 256))
    (error : Option String) : Outcome :=
  Program.ReadFrom k (Reader.ofTypedData typed_data) error

/-- A call ended by returning `nullptr` with the non-null error slot holding
`message`. -/
def Outcome.failsWith (o : Outcome) (message : String) : Prop :=
  match o with
  | .returned none (some m) _ => m = message
  | _ => False

instance (o : Outcome) (message : String) : Decidable (o.failsWith message) := by
  unfold Outcome.failsWith; split <;> infer_instance

/-- The reader as a call of `ReadFrom` leaves it, with its log of reads,
whichever way the call ends. -/
def Outcome.reader (o : Outcome) : Reader :=
  match o with
  | .returned _ _ r => r
  | .outOfRange r => r

/-- The reader as the `while` loop leaves it, with its log of reads, whichever
way the loop ends. -/
def WalkResult.reader (w : WalkResult) : Reader :=
  match w with
  | .finished r _ => r
  | .invalidSize r => r
  | .outOfRange r => r

/-! ## Loop-free closed forms

The decode written without the loop and without reader calls, as nested tests
on the values `u32 buffer p`. `ReadFrom_eq_closedForm` below proves that
`Program.ReadFrom` computes exactly this; the closed forms are a proof device
and are never used to state what the source does. -/

/-- Closed form of `readTailIndex` on a byte range of at least 8 bytes, with
`L = u32 buffer (n - 8)`: either the index lies inside the range and the seven
fields are read at `n - 4 * (L + 10)`, ..., `n - 4 * (L + 4)`, or the read of
`source_table_offset` is before the start of the range. -/
def tailClosedForm (program : Program) (buffer : List (Fin 256)) (tr : List Int)
    (error : Option String) : Outcome :=
  let n := buffer.length
  let L := u32 buffer (n - 8)
  if 4 * (L + 10) ≤ n then
    .returned (some
      { program with
        library_count_ := L
        source_table_offset_ := u32 buffer (n - 4 * (L + 10))
        name_table_offset_ := u32 buffer (n - 4 * (L + 9))
        metadata_payloads_offset_ := u32 buffer (n - 4 * (L + 8))
        metadata_mappings_offset_ := u32 buffer (n - 4 * (L + 7))
        string_table_offset_ := u32 buffer (n - 4 * (L + 6))
        constant_table_offset_ := u32 buffer (n - 4 * (L + 5))
        main_method_reference_ :=
          NameIndex.mk ((u32 buffer (n - 4 * (L + 4)) + 2 ^ 32 - 1) % 2 ^ 32) })
      error
      ⟨buffer, (n : Int) - 4 * (L + 3),
        tr ++ [(n : Int) - 8, (n : Int) - 4 * (L + 10), (n : Int) - 4 * (L + 9),
          (n : Int) - 4 * (L + 8), (n : Int) - 4 * (L + 7), (n : Int) - 4 * (L + 6),
          (n : Int) - 4 * (L + 5), (n : Int) - 4 * (L + 4)]⟩
  else
    .outOfRange ⟨buffer, (n : Int) - 4 * (L + 9),
      tr ++ [(n : Int) - 8, (n : Int) - 4 * (L + 10)]⟩

/-- Closed form of `Program.ReadFrom` on the reader `⟨buffer, o, tr⟩`. -/
def closedForm (k : KernelConstants) (buffer : List (Fin 256)) (o : Int) (tr : List Int)
    (error : Option String) : Outcome :=
  let n := buffer.length
  let v := u32 buffer (o.toNat + 4)
  let e1 := u32 buffer (n - 4)
  let e2 := u32 buffer (n - e1 - 4)
  if n < 60 then
    .returned none (setError error kKernelInvalidFilesize) ⟨buffer, o, tr⟩
  else if o < 0 ∨ (n : Int) < o + 4 then
    .outOfRange ⟨buffer, o + 4, tr ++ [o]⟩
  else if u32 buffer o.toNat ≠ k.kMagicProgramFile then
    .returned none (setError error kKernelInvalidMagicIdentifier)
      ⟨buffer, o + 4, tr ++ [o]⟩
  else if (n : Int) < o + 8 then
    .outOfRange ⟨buffer, o + 4 + 4, tr ++ [o, o + 4]⟩
  else if v < k.kMinSupportedKernelFormatVersion ∨
      v > k.kMaxSupportedKernelFormatVersion then
    .returned none (setError error kKernelInvalidBinaryFormatVersion)
      ⟨buffer, o + 4 + 4, tr ++ [o, o + 4]⟩
  else if n < e1 then
    .returned none (setError error kKernelInvalidSizeIndicated)
      ⟨buffer, n, tr ++ [o, o + 4, (n : Int) - 4]⟩
  else if n ≤ e1 + 4 then
    tailClosedForm
      { Program.new with
        binary_version_ := v, kernel_data_ := buffer, single_program_ := true }
      buffer (tr ++ [o, o + 4, (n : Int) - 4]) error
  else if n - e1 < e2 then
    .returned none (setError error kKernelInvalidSizeIndicated)
      ⟨buffer, (n : Int) - e1, tr ++ [o, o + 4, (n : Int) - 4, (n : Int) - e1 - 4]⟩
  else
    tailClosedForm
      { Program.new with
        binary_version_ := v, kernel_data_ := buffer, single_program_ := false }
      buffer (tr ++ [o, o + 4, (n : Int) - 4, (n : Int) - e1 - 4]) error

/-! ## Sample inputs -/

/-- A sample instance of the format constants. -/
def sampleConstants : KernelConstants :=
  { kMagicProgramFile := 0x90ABCDEF
    kMinSupportedKernelFormatVersion := 18
    kMaxSupportedKernelFormatVersion := 29 }

/-- The four big-endian bytes of a value below `2 ^ 32`. -/
def be32 (v : Nat) : List (Fin 256) :=
  [Fin.ofNat (v / 2 ^ 24), Fin.ofNat (v / 2 ^ 16), Fin.ofNat (v / 2 ^ 8), Fin.ofNat v]

/-- A container of 60 bytes: magic, version, 12 bytes of content, then the
tail index `source, names, payloads, mappings, strings, constants, main,
library offset, library_count, size`. -/
def sampleContainer (version main library_count size : Nat) : List (Fin 256) :=
  be32 0x90ABCDEF ++ be32 version ++ List.replicate 12 0 ++
    be32 8 ++ be32 9 ++ be32 10 ++ be32 11 ++ be32 12 ++ be32 13 ++ be32 main ++
    be32 14 ++ be32 library_count ++ be32 size

/-! ## Reads and closed forms -/

/-- A byte is below 256. -/
theorem byteAt_lt (buf : List (Fin 256)) (i : Nat) : byteAt buf i < 256 := by
  unfold byteAt
  split
  · rename_i b _; exact b.isLt
  · decide

/-- A value read by `ReadUInt32` fits in 32 bits. -/
theorem u32_lt (buf : List (Fin 256)) (p : Nat) : u32 buf p < 2 ^ 32 := by
  unfold u32
  have h0 := byteAt_lt buf p
  have h1 := byteAt_lt buf (p + 1)
  have h2 := byteAt_lt buf (p + 2)
  have h3 := byteAt_lt buf (p + 3)
  omega

/-- Bytes of `a ++ b` inside `a`. -/
theorem byteAt_append_left (a b : List (Fin 256)) (i : Nat) (h : i < a.length) :
    byteAt (a ++ b) i = byteAt a i := by
  unfold byteAt
  rw [List.getElem?_append_left h]

/-- Bytes of `a ++ b` inside `b`. -/
theorem byteAt_append_right (a b : List (Fin 256)) (i : Nat) :
    byteAt (a ++ b) (a.length + i) = byteAt b i := by
  unfold byteAt
  rw [List.getElem?_append_right (by omega)]
  simp

/-- A 4-byte field of `a ++ b` that lies inside `a`. -/
theorem u32_append_left (a b : List (Fin 256)) (p : Nat) (h : p + 4 ≤ a.length) :
    u32 (a ++ b) p = u32 a p := by
  unfold u32
  rw [byteAt_append_left a b p (by omega), byteAt_append_left a b (p + 1) (by omega),
    byteAt_append_left a b (p + 2) (by omega), byteAt_append_left a b (p + 3) (by omega)]

/-- A 4-byte field of `a ++ b` that lies inside `b`. -/
theorem u32_append_right (a b : List (Fin 256)) (p : Nat) :
    u32 (a ++ b) (a.length + p) = u32 b p := by
  unfold u32
  rw [Nat.add_assoc a.length p 1, Nat.add_assoc a.length p 2, Nat.add_assoc a.length p 3,
    byteAt_append_right, byteAt_append_right, byteAt_append_right, byteAt_append_right]

/-- A sequential read at a position `p` with `p + 4 ≤ size`. -/
theorem ReadUInt32_inRange (buf : List (Fin 256)) (off : Int) (tr : List Int) (p : Nat)
    (hp : off = (p : Int)) (h : p + 4 ≤ buf.length) :
    Reader.ReadUInt32 ⟨buf, off, tr⟩ = (some (u32 buf p), ⟨buf, off + 4, tr ++ [off]⟩) := by
  subst hp
  have h' : (0 : Int) ≤ (p : Int) ∧ (p : Int) + 4 ≤ (buf.length : Int) := by omega
  simp [Reader.ReadUInt32, Reader.ReadUInt32At, Reader.size, h']

/-- A sequential read at a position outside the range. -/
theorem ReadUInt32_outOfRange (buf : List (Fin 256)) (off : Int) (tr : List Int)
    (h : off < 0 ∨ (buf.length : Int) < off + 4) :
    Reader.ReadUInt32 ⟨buf, off, tr⟩ = (none, ⟨buf, off + 4, tr ++ [off]⟩) := by
  have h' : ¬ ((0 : Int) ≤ off ∧ off + 4 ≤ (buf.length : Int)) := by omega
  simp [Reader.ReadUInt32, Reader.ReadUInt32At, Reader.size, h']



/-- The trailer walk from `n - 4` with counter 0, without the loop: at most
two trailers `e1` and `e2` are read. The start offset of a container is the
position just after its trailer minus the trailer value. -/
theorem trailerWalk_eq (buf : List (Fin 256)) (tr : List Int) (n e1 e2 : Nat)
    (hn : buf.length = n) (h4 : 4 < n) (he1 : u32 buf (n - 4) = e1)
    (he2 : u32 buf (n - e1 - 4) = e2) :
    trailerWalk ⟨buf, (n : Int) - 4, tr⟩ 0 =
      if n < e1 then .invalidSize ⟨buf, n, tr ++ [(n : Int) - 4]⟩
      else if n ≤ e1 + 4 then
        .finished ⟨buf, (n : Int) - e1 - 4, tr ++ [(n : Int) - 4]⟩ 1
      else if n - e1 < e2 then
        .invalidSize ⟨buf, (n : Int) - e1, tr ++ [(n : Int) - 4, (n : Int) - e1 - 4]⟩
      else
        .finished ⟨buf, (n : Int) - e1, tr ++ [(n : Int) - 4, (n : Int) - e1 - 4]⟩ 2 := by
  rw [trailerWalk]
  simp only [Reader.offset]
  rw [if_pos (by omega), ReadUInt32_inRange buf _ tr (n - 4) (by omega) (by omega), he1]
  simp only [Reader.set_offset]
  by_cases c1 : n < e1
  · rw [if_pos c1, if_pos (by omega)]
    congr 2; omega
  · rw [if_neg c1, if_neg (by omega), dif_neg (by omega)]
    rw [trailerWalk]
    simp only [Reader.offset]
    by_cases c2 : n ≤ e1 + 4
    · rw [if_pos c2, if_neg (by omega)]
      congr 2; omega
    · rw [if_neg c2, if_pos (by omega),
        ReadUInt32_inRange buf _ _ (n - e1 - 4) (by omega) (by omega), he2]
      simp only []
      by_cases c3 : n - e1 < e2
      · rw [if_pos c3, if_pos (by omega)]
        congr 2
        · omega
        · simp
      · rw [if_neg c3, if_neg (by omega), dif_pos (by omega)]
        congr 2
        · omega
        · simp



/-- The tail index reads when the index lies inside the range. -/
theorem readTailIndex_inRange (program : Program) (buf : List (Fin 256)) (off : Int)
    (tr : List Int) (err : Option String) (n L : Nat) (hn : buf.length = n)
    (hL : u32 buf (n - 8) = L) (hidx : 4 * (L + 10) ≤ n) :
    readTailIndex program ⟨buf, off, tr⟩ err =
      .returned (some
        { program with
          library_count_ := L
          source_table_offset_ := u32 buf (n - 4 * (L + 10))
          name_table_offset_ := u32 buf (n - 4 * (L + 9))
          metadata_payloads_offset_ := u32 buf (n - 4 * (L + 8))
          metadata_mappings_offset_ := u32 buf (n - 4 * (L + 7))
          string_table_offset_ := u32 buf (n - 4 * (L + 6))
          constant_table_offset_ := u32 buf (n - 4 * (L + 5))
          main_method_reference_ :=
            NameIndex.mk ((u32 buf (n - 4 * (L + 4)) + 2 ^ 32 - 1) % 2 ^ 32) })
        err
        ⟨buf, (n : Int) - 4 * (L + 3),
          tr ++ [(n : Int) - 8, (n : Int) - 4 * (L + 10), (n : Int) - 4 * (L + 9),
            (n : Int) - 4 * (L + 8), (n : Int) - 4 * (L + 7), (n : Int) - 4 * (L + 6),
            (n : Int) - 4 * (L + 5), (n : Int) - 4 * (L + 4)]⟩ := by
  unfold readTailIndex
  simp only [Reader.ReadFromIndexNoReset, Reader.set_offset, Reader.size,
    LibraryCountFieldCountFromEnd, SourceTableFieldCountFromFirstLibraryOffset]
  rw [ReadUInt32_inRange buf _ tr (n - 8) (by omega) (by omega), hL]
  simp only [withRead]
  rw [ReadUInt32_inRange buf _ _ (n - 4 * (L + 10)) (by omega) (by omega)]
  simp only []
  rw [ReadUInt32_inRange buf _ _ (n - 4 * (L + 9)) (by omega) (by omega)]
  simp only []
  rw [ReadUInt32_inRange buf _ _ (n - 4 * (L + 8)) (by omega) (by omega)]
  simp only []
  rw [ReadUInt32_inRange buf _ _ (n - 4 * (L + 7)) (by omega) (by omega)]
  simp only []
  rw [ReadUInt32_inRange buf _ _ (n - 4 * (L + 6)) (by omega) (by omega)]
  simp only []
  rw [ReadUInt32_inRange buf _ _ (n - 4 * (L + 5)) (by omega) (by omega)]
  simp only []
  rw [ReadUInt32_inRange buf _ _ (n - 4 * (L + 4)) (by omega) (by omega)]
  simp only []
  congr 2
  · omega
  · simp only [List.append_assoc, List.singleton_append, List.cons_append, List.nil_append]
    subst hn
    congr 1
    simp only [List.cons.injEq, and_true]
    omega



/-- The tail index reads when `library_count` places `source_table_offset`
before the start of the range. -/
theorem readTailIndex_outOfRange (program : Program) (buf : List (Fin 256)) (off : Int)
    (tr : List Int) (err : Option String) (n L : Nat) (hn : buf.length = n) (h8 : 8 ≤ n)
    (hL : u32 buf (n - 8) = L) (hidx : n < 4 * (L + 10)) :
    readTailIndex program ⟨buf, off, tr⟩ err =
      .outOfRange ⟨buf, (n : Int) - 4 * (L + 9),
        tr ++ [(n : Int) - 8, (n : Int) - 4 * (L + 10)]⟩ := by
  unfold readTailIndex
  simp only [Reader.ReadFromIndexNoReset, Reader.set_offset, Reader.size,
    LibraryCountFieldCountFromEnd, SourceTableFieldCountFromFirstLibraryOffset]
  rw [ReadUInt32_inRange buf _ tr (n - 8) (by omega) (by omega), hL]
  simp only [withRead]
  rw [ReadUInt32_outOfRange buf _ _ (by omega)]
  simp only []
  subst hn
  congr 2
  · omega
  · simp only [List.append_assoc, List.singleton_append, List.cons_append, List.nil_append]
    congr 1
    simp only [List.cons.injEq, and_true]
    omega



/-- The decode after a valid header read at position `p`. -/
theorem ReadFrom_valid_header (k : KernelConstants) (buf : List (Fin 256)) (o : Int)
    (tr : List Int) (err : Option String) (n p v e1 e2 : Nat)
    (hn : buf.length = n) (h60 : 60 ≤ n) (ho : o = (p : Int)) (hp : p + 8 ≤ n)
    (hmagic : u32 buf p = k.kMagicProgramFile) (hv : u32 buf (p + 4) = v)
    (hmin : k.kMinSupportedKernelFormatVersion ≤ v)
    (hmax : v ≤ k.kMaxSupportedKernelFormatVersion)
    (he1 : u32 buf (n - 4) = e1) (he2 : u32 buf (n - e1 - 4) = e2) :
    Program.ReadFrom k ⟨buf, o, tr⟩ err =
      if n < e1 then
        .returned none (setError err kKernelInvalidSizeIndicated)
          ⟨buf, n, tr ++ [o, o + 4, (n : Int) - 4]⟩
      else if n ≤ e1 + 4 then
        readTailIndex
          { Program.new with
            binary_version_ := v, kernel_data_ := buf, single_program_ := true }
          ⟨buf, (n : Int) - e1 - 4, tr ++ [o, o + 4, (n : Int) - 4]⟩ err
      else if n - e1 < e2 then
        .returned none (setError err kKernelInvalidSizeIndicated)
          ⟨buf, (n : Int) - e1, tr ++ [o, o + 4, (n : Int) - 4, (n : Int) - e1 - 4]⟩
      else
        readTailIndex
          { Program.new with
            binary_version_ := v, kernel_data_ := buf, single_program_ := false }
          ⟨buf, (n : Int) - e1, tr ++ [o, o + 4, (n : Int) - 4, (n : Int) - e1 - 4]⟩
          err := by
  unfold Program.ReadFrom
  simp only [Reader.size]
  rw [if_neg (by omega), ReadUInt32_inRange buf o tr p ho (by omega)]
  simp only [withRead]
  rw [if_neg (not_not.mpr hmagic),
    ReadUInt32_inRange buf (o + 4) _ (p + 4) (by omega) (by omega), hv]
  simp only [Reader.size, Reader.set_offset]
  rw [if_neg (by omega), hn, trailerWalk_eq buf _ n e1 e2 hn (by omega) he1 he2]
  split_ifs <;> simp



/-- The tail index reads equal their closed form. -/
theorem readTailIndex_eq (program : Program) (buf : List (Fin 256)) (off : Int)
    (tr : List Int) (err : Option String) (h8 : 8 ≤ buf.length) :
    readTailIndex program ⟨buf, off, tr⟩ err = tailClosedForm program buf tr err := by
  unfold tailClosedForm
  simp only []
  by_cases hidx : 4 * (u32 buf (buf.length - 8) + 10) ≤ buf.length
  · rw [if_pos hidx]
    exact readTailIndex_inRange program buf off tr err _ _ rfl rfl hidx
  · rw [if_neg hidx]
    exact readTailIndex_outOfRange program buf off tr err _ _ rfl h8 rfl (by omega)

/-- The decode equals its closed form, for every reader and error slot. -/
theorem ReadFrom_eq_closedForm (k : KernelConstants) (buf : List (Fin 256)) (o : Int)
    (tr : List Int) (err : Option String) :
    Program.ReadFrom k ⟨buf, o, tr⟩ err = closedForm k buf o tr err := by
  unfold closedForm
  simp only []
  by_cases h60 : buf.length < 60
  · rw [if_pos h60]
    unfold Program.ReadFrom
    simp only [Reader.size]
    rw [if_pos (by omega)]
  rw [if_neg h60]
  by_cases hoor : o < 0 ∨ (buf.length : Int) < o + 4
  · rw [if_pos hoor]
    unfold Program.ReadFrom
    simp only [Reader.size]
    rw [if_neg (by omega), ReadUInt32_outOfRange buf o tr hoor]
    simp only [withRead]
  rw [if_neg hoor]
  by_cases hmagic : u32 buf o.toNat ≠ k.kMagicProgramFile
  · rw [if_pos hmagic]
    unfold Program.ReadFrom
    simp only [Reader.size]
    rw [if_neg (by omega), ReadUInt32_inRange buf o tr o.toNat (by omega) (by omega)]
    simp only [withRead]
    rw [if_pos hmagic]
  rw [if_neg hmagic]
  by_cases hoor2 : (buf.length : Int) < o + 8
  · rw [if_pos hoor2]
    unfold Program.ReadFrom
    simp only [Reader.size]
    rw [if_neg (by omega), ReadUInt32_inRange buf o tr o.toNat (by omega) (by omega)]
    simp only [withRead]
    rw [if_neg hmagic, ReadUInt32_outOfRange buf (o + 4) _ (by omega)]
    simp
  rw [if_neg hoor2]
  by_cases hver : u32 buf (o.toNat + 4) < k.kMinSupportedKernelFormatVersion ∨
      u32 buf (o.toNat + 4) > k.kMaxSupportedKernelFormatVersion
  · rw [if_pos hver]
    unfold Program.ReadFrom
    simp only [Reader.size]
    rw [if_neg (by omega), ReadUInt32_inRange buf o tr o.toNat (by omega) (by omega)]
    simp only [withRead]
    rw [if_neg hmagic,
      ReadUInt32_inRange buf (o + 4) _ (o.toNat + 4) (by omega) (by omega)]
    simp only []
    rw [if_pos hver]
    simp
  rw [if_neg hver,
    ReadFrom_valid_header k buf o tr err buf.length o.toNat _ _ _ rfl (by omega)
      (by omega) (by omega) (not_not.mp hmagic) rfl (by omega) (by omega) rfl rfl]
  have h8 : 8 ≤ buf.length := by omega
  split_ifs <;> first | rfl | exact readTailIndex_eq _ _ _ _ _ h8

/-- The invalid-size and invalid-version messages differ. -/
theorem messages_distinct :
    kKernelInvalidSizeIndicated ≠ kKernelInvalidBinaryFormatVersion := by decide

/-- The tail index reads never return `nullptr`. -/
theorem tailClosedForm_ne_nullptr (program : Program) (buf : List (Fin 256)) (tr : List Int)
    (err e : Option String) (r : Reader) :
    tailClosedForm program buf tr err ≠ .returned none e r := by
  unfold tailClosedForm
  simp only []
  split_ifs <;> simp

/-- What is known when the tail index reads return a `Program`. -/
theorem tailClosedForm_returned_inv (program : Program) (buf : List (Fin 256))
    (tr : List Int) (err e : Option String) (p : Program) (r : Reader)
    (h : tailClosedForm program buf tr err = .returned (some p) e r) :
    4 * (u32 buf (buf.length - 8) + 10) ≤ buf.length ∧ e = err ∧
      p.binary_version_ = program.binary_version_ ∧
      p.single_program_ = program.single_program_ ∧
      p.main_method_reference_ =
        NameIndex.mk ((u32 buf (buf.length - 4 * (u32 buf (buf.length - 8) + 4)) +
          2 ^ 32 - 1) % 2 ^ 32) ∧
      r.typed_data = buf ∧
      r.offset_ = (buf.length : Int) - 4 * (u32 buf (buf.length - 8) + 3) ∧
      r.reads.getLast? =
        some ((buf.length : Int) - 4 * (u32 buf (buf.length - 8) + 4)) := by
  unfold tailClosedForm at h
  simp only [] at h
  split_ifs at h with hidx
  · injection h with hp he hr
    injection hp with hp
    subst hp hr he
    refine ⟨hidx, rfl, rfl, rfl, rfl, rfl, rfl, ?_⟩
    simp

/-- What is known when `ReadFrom` returns a `Program`. -/
theorem ReadFrom_returned_program_inv (k : KernelConstants) (buf : List (Fin 256)) (o : Int)
    (tr : List Int) (err e : Option String) (p : Program) (r : Reader)
    (h : Program.ReadFrom k ⟨buf, o, tr⟩ err = .returned (some p) e r) :
    60 ≤ buf.length ∧ 0 ≤ o ∧ o + 8 ≤ buf.length ∧
      u32 buf o.toNat = k.kMagicProgramFile ∧
      k.kMinSupportedKernelFormatVersion ≤ u32 buf (o.toNat + 4) ∧
      u32 buf (o.toNat + 4) ≤ k.kMaxSupportedKernelFormatVersion ∧
      u32 buf (buf.length - 4) ≤ buf.length ∧
      (u32 buf (buf.length - 4) + 4 < buf.length →
        u32 buf (buf.length - u32 buf (buf.length - 4) - 4) ≤
          buf.length - u32 buf (buf.length - 4)) ∧
      ∃ trw, tailClosedForm
        { Program.new with
          binary_version_ := u32 buf (o.toNat + 4), kernel_data_ := buf,
          single_program_ := decide (buf.length ≤ u32 buf (buf.length - 4) + 4) }
        buf trw err = .returned (some p) e r := by
  rw [ReadFrom_eq_closedForm] at h
  unfold closedForm at h
  simp only [] at h
  split_ifs at h with c1 c2 c3 c4 c5 c6 c7 c8
  all_goals first | exact absurd h (by simp) | skip
  · refine ⟨by omega, by omega, by omega, not_not.mp c3, by omega, by omega, by omega,
      fun hlt => by omega, tr ++ [o, o + 4, (buf.length : Int) - 4], ?_⟩
    rw [decide_eq_true c7]
    exact h
  · refine ⟨by omega, by omega, by omega, not_not.mp c3, by omega, by omega, by omega,
      fun _ => by omega,
      tr ++ [o, o + 4, (buf.length : Int) - 4,
        (buf.length : Int) - u32 buf (buf.length - 4) - 4], ?_⟩
    rw [decide_eq_false c7]
    exact h

/-- The tail index reads end the same way whatever the error slot: with a
`Program` and the slot unchanged, or with an out-of-range read. -/
theorem tailClosedForm_cases (program : Program) (buf : List (Fin 256)) (tr : List Int) :
    (∃ p r, r.typed_data = buf ∧ p.kernel_data_ = program.kernel_data_ ∧
        ∀ err, tailClosedForm program buf tr err = .returned (some p) err r) ∨
      (∃ r, r.typed_data = buf ∧ ∀ err, tailClosedForm program buf tr err = .outOfRange r) := by
  unfold tailClosedForm
  simp only []
  by_cases hidx : 4 * (u32 buf (buf.length - 8) + 10) ≤ buf.length
  · refine Or.inl ⟨_, _, ?_, ?_, fun err => by rw [if_pos hidx]⟩ <;> rfl
  · refine Or.inr ⟨_, ?_, fun err => by rw [if_neg hidx]⟩
    rfl

/-- The decode ends the same way whatever the error slot, and leaves the reader
over the same byte range. -/
theorem closedForm_cases (k : KernelConstants) (buf : List (Fin 256)) (o : Int)
    (tr : List Int) :
    (∃ p r, r.typed_data = buf ∧ p.kernel_data_ = buf ∧
        ∀ err, closedForm k buf o tr err = .returned (some p) err r) ∨
      (∃ message r, r.typed_data = buf ∧
        ∀ err, closedForm k buf o tr err = .returned none (setError err message) r) ∨
      (∃ r, r.typed_data = buf ∧ ∀ err, closedForm k buf o tr err = .outOfRange r) := by
  unfold closedForm
  simp only []
  by_cases c1 : buf.length < 60
  · refine Or.inr (Or.inl ⟨_, _, ?_, fun err => by rw [if_pos c1]⟩)
    rfl
  by_cases c2 : o < 0 ∨ (buf.length : Int) < o + 4
  · refine Or.inr (Or.inr ⟨_, ?_, fun err => by rw [if_neg c1, if_pos c2]⟩)
    rfl
  by_cases c3 : u32 buf o.toNat ≠ k.kMagicProgramFile
  · refine Or.inr (Or.inl ⟨_, _, ?_, fun err => by rw [if_neg c1, if_neg c2, if_pos c3]⟩)
    rfl
  by_cases c4 : (buf.length : Int) < o + 8
  · refine Or.inr (Or.inr ⟨_, ?_, fun err => by
      rw [if_neg c1, if_neg c2, if_neg c3, if_pos c4]⟩)
    rfl
  by_cases c5 : u32 buf (o.toNat + 4) < k.kMinSupportedKernelFormatVersion ∨
      u32 buf (o.toNat + 4) > k.kMaxSupportedKernelFormatVersion
  · refine Or.inr (Or.inl ⟨_, _, ?_, fun err => by
      rw [if_neg c1, if_neg c2, if_neg c3, if_neg c4, if_pos c5]⟩)
    rfl
  by_cases c6 : buf.length < u32 buf (buf.length - 4)
  · refine Or.inr (Or.inl ⟨_, _, ?_, fun err => by
      rw [if_neg c1, if_neg c2, if_neg c3, if_neg c4, if_neg c5, if_pos c6]⟩)
    rfl
  by_cases c7 : buf.length ≤ u32 buf (buf.length - 4) + 4
  · rcases tailClosedForm_cases
        { Program.new with
          binary_version_ := u32 buf (o.toNat + 4), kernel_data_ := buf,
          single_program_ := true }
        buf (tr ++ [o, o + 4, (buf.length : Int) - 4]) with
      ⟨p, r, hr, hp, h⟩ | ⟨r, hr, h⟩
    · exact Or.inl ⟨p, r, hr, hp, fun err => by
        rw [if_neg c1, if_neg c2, if_neg c3, if_neg c4, if_neg c5, if_neg c6, if_pos c7]
        exact h err⟩
    · exact Or.inr (Or.inr ⟨r, hr, fun err => by
        rw [if_neg c1, if_neg c2, if_neg c3, if_neg c4, if_neg c5, if_neg c6, if_pos c7]
        exact h err⟩)
  by_cases c8 : buf.length - u32 buf (buf.length - 4) <
      u32 buf (buf.length - u32 buf (buf.length - 4) - 4)
  · refine Or.inr (Or.inl ⟨_, _, ?_, fun err => by
      rw [if_neg c1, if_neg c2, if_neg c3, if_neg c4, if_neg c5, if_neg c6, if_neg c7,
        if_pos c8]⟩)
    rfl
  rcases tailClosedForm_cases
      { Program.new with
        binary_version_ := u32 buf (o.toNat + 4), kernel_data_ := buf,
        single_program_ := false }
      buf (tr ++ [o, o + 4, (buf.length : Int) - 4,
        (buf.length : Int) - u32 buf (buf.length - 4) - 4]) with
    ⟨p, r, hr, hp, h⟩ | ⟨r, hr, h⟩
  · exact Or.inl ⟨p, r, hr, hp, fun err => by
      rw [if_neg c1, if_neg c2, if_neg c3, if_neg c4, if_neg c5, if_neg c6, if_neg c7,
        if_neg c8]
      exact h err⟩
  · exact Or.inr (Or.inr ⟨r, hr, fun err => by
      rw [if_neg c1, if_neg c2, if_neg c3, if_neg c4, if_neg c5, if_neg c6, if_neg c7,
        if_neg c8]
      exact h err⟩)

/-- One more iteration of the loop once the counter is 1: it reads at most one
trailer and, when it finishes, the counter is 1 (no read) or 2 (one read). -/
theorem trailerWalk_from_one (buf : List (Fin 256)) (off : Int) (tr : List Int) :
    ∃ l : List Int, (trailerWalk ⟨buf, off, tr⟩ 1).reader.reads = tr ++ l ∧ l.length ≤ 1 ∧
      ∀ r c, trailerWalk ⟨buf, off, tr⟩ 1 = .finished r c → c = 1 + l.length := by
  rw [trailerWalk]
  simp only [Reader.offset]
  by_cases hpos : 0 < off
  · rw [if_pos hpos]
    by_cases hin : off + 4 ≤ (buf.length : Int)
    · rw [ReadUInt32_inRange buf off tr off.toNat (by omega) (by omega)]
      simp only []
      by_cases hstart : off + 4 - (u32 buf off.toNat : Int) < 0
      · rw [if_pos hstart]
        exact ⟨[off], rfl, by simp, fun r c h => by simp at h⟩
      · rw [if_neg hstart, dif_pos (by omega)]
        refine ⟨[off], rfl, by simp, fun r c h => ?_⟩
        injection h with _ hc
        simp [← hc]
    · rw [ReadUInt32_outOfRange buf off tr (by omega)]
      exact ⟨[off], rfl, by simp, fun r c h => by simp at h⟩
  · rw [if_neg hpos]
    refine ⟨[], by simp [WalkResult.reader], by simp, fun r c h => ?_⟩
    injection h with _ hc
    simp [← hc]

/-- The loop from counter 0 on any reader: at most two trailer reads, and the
counter at the end is the number of trailers read. -/
theorem trailerWalk_from_zero (buf : List (Fin 256)) (off : Int) (tr : List Int) :
    ∃ l : List Int, (trailerWalk ⟨buf, off, tr⟩ 0).reader.reads = tr ++ l ∧ l.length ≤ 2 ∧
      ∀ r c, trailerWalk ⟨buf, off, tr⟩ 0 = .finished r c → c = l.length := by
  rw [trailerWalk]
  simp only [Reader.offset]
  by_cases hpos : 0 < off
  · rw [if_pos hpos]
    by_cases hin : off + 4 ≤ (buf.length : Int)
    · rw [ReadUInt32_inRange buf off tr off.toNat (by omega) (by omega)]
      simp only []
      by_cases hstart : off + 4 - (u32 buf off.toNat : Int) < 0
      · rw [if_pos hstart]
        exact ⟨[off], rfl, by simp, fun r c h => by simp at h⟩
      · rw [if_neg hstart, dif_neg (by omega)]
        simp only [Reader.set_offset]
        obtain ⟨l, hl, hlen, hc⟩ :=
          trailerWalk_from_one buf (off + 4 - (u32 buf off.toNat : Int) - 4) (tr ++ [off])
        refine ⟨off :: l, ?_, by simp; omega, fun r c h => ?_⟩
        · rw [hl]; simp
        · have := hc r c h
          simp; omega
    · rw [ReadUInt32_outOfRange buf off tr (by omega)]
      exact ⟨[off], rfl, by simp, fun r c h => by simp at h⟩
  · rw [if_neg hpos]
    refine ⟨[], by simp [WalkResult.reader], by simp, fun r c h => ?_⟩
    injection h with _ hc
    simp [← hc]

/-- The reads of the tail index: `library_count` at `n - 8`, then either the
seven fields, all inside the range, or the single read of `source_table_offset`
before the start of the range. -/
theorem tailClosedForm_reads (program : Program) (buf : List (Fin 256)) (tr : List Int)
    (err : Option String) :
    ∃ post : List Int,
      (tailClosedForm program buf tr err).reader.reads =
        tr ++ [(buf.length : Int) - 8] ++ post ∧
      (post = [(buf.length : Int) - 4 * (u32 buf (buf.length - 8) + 10)] ∨
        post = [(buf.length : Int) - 4 * (u32 buf (buf.length - 8) + 10),
          (buf.length : Int) - 4 * (u32 buf (buf.length - 8) + 9),
          (buf.length : Int) - 4 * (u32 buf (buf.length - 8) + 8),
          (buf.length : Int) - 4 * (u32 buf (buf.length - 8) + 7),
          (buf.length : Int) - 4 * (u32 buf (buf.length - 8) + 6),
          (buf.length : Int) - 4 * (u32 buf (buf.length - 8) + 5),
          (buf.length : Int) - 4 * (u32 buf (buf.length - 8) + 4)]) ∧
      (∀ q ∈ post, (0 ≤ q ∧ q ≤ (buf.length : Int) - 4) ∨
        (q = (buf.length : Int) - 4 * (u32 buf (buf.length - 8) + 10) ∧ q < 0)) := by
  unfold tailClosedForm
  simp only []
  by_cases hidx : 4 * (u32 buf (buf.length - 8) + 10) ≤ buf.length
  · rw [if_pos hidx]
    refine ⟨_, ?_, Or.inr rfl, ?_⟩
    · simp [Outcome.reader]
    · intro q hq
      simp only [List.mem_cons, List.mem_singleton, List.not_mem_nil, or_false] at hq
      left
      omega
  · rw [if_neg hidx]
    refine ⟨_, ?_, Or.inl rfl, ?_⟩
    · simp [Outcome.reader]
    · intro q hq
      simp only [List.mem_cons, List.mem_singleton, List.not_mem_nil, or_false] at hq
      right
      omega

/-- Bytes of a range with its first `d` bytes dropped. -/
theorem byteAt_drop (b : List (Fin 256)) (d i : Nat) :
    byteAt (b.drop d) i = byteAt b (d + i) := by
  unfold byteAt
  rw [List.getElem?_drop]

/-- A 4-byte field of a range with its first `d` bytes dropped. -/
theorem u32_drop (b : List (Fin 256)) (d p : Nat) : u32 (b.drop d) p = u32 b (d + p) := by
  unfold u32
  rw [byteAt_drop, byteAt_drop, byteAt_drop, byteAt_drop]
  rfl

/-- Replacing the first 8 bytes of a range keeps every 4-byte field from
position 8 on. -/
theorem u32_replace_header (hdr b : List (Fin 256)) (p : Nat) (hhdr : hdr.length = 8)
    (hp : 8 ≤ p) : u32 (hdr ++ b.drop 8) p = u32 b p := by
  have h := u32_append_right hdr (b.drop 8) (p - 8)
  rw [hhdr, show 8 + (p - 8) = p by omega] at h
  rw [h, u32_drop, show 8 + (p - 8) = p by omega]

/-- The `Program` that the tail index reads return. -/
theorem tailClosedForm_returned_fields (program : Program) (buf : List (Fin 256))
    (tr : List Int) (err e : Option String) (p : Program) (r : Reader)
    (h : tailClosedForm program buf tr err = .returned (some p) e r) :
    4 * (u32 buf (buf.length - 8) + 10) ≤ buf.length ∧
      p.binary_version_ = program.binary_version_ ∧
      p.library_count_ = u32 buf (buf.length - 8) ∧
      p.source_table_offset_ =
        u32 buf (buf.length - 4 * (u32 buf (buf.length - 8) + 10)) ∧
      p.name_table_offset_ = u32 buf (buf.length - 4 * (u32 buf (buf.length - 8) + 9)) ∧
      p.metadata_payloads_offset_ =
        u32 buf (buf.length - 4 * (u32 buf (buf.length - 8) + 8)) ∧
      p.metadata_mappings_offset_ =
        u32 buf (buf.length - 4 * (u32 buf (buf.length - 8) + 7)) ∧
      p.string_table_offset_ = u32 buf (buf.length - 4 * (u32 buf (buf.length - 8) + 6)) ∧
      p.constant_table_offset_ =
        u32 buf (buf.length - 4 * (u32 buf (buf.length - 8) + 5)) ∧
      p.main_method_reference_ =
        NameIndex.mk ((u32 buf (buf.length - 4 * (u32 buf (buf.length - 8) + 4)) +
          2 ^ 32 - 1) % 2 ^ 32) := by
  unfold tailClosedForm at h
  simp only [] at h
  by_cases hidx : 4 * (u32 buf (buf.length - 8) + 10) ≤ buf.length
  · rw [if_pos hidx] at h
    injection h with hp he hr
    injection hp with hp
    subst hp
    exact ⟨hidx, rfl, rfl, rfl, rfl, rfl, rfl, rfl, rfl, rfl⟩
  · rw [if_neg hidx] at h
    exact Outcome.noConfusion h

/-- The decode of `A ++ B`, cursor at 0, when `A` has a valid header and a
trailer equal to its length and `B` a trailer equal to its length and its tail
index inside it: the version is `A`'s, the tail index fields are `B`'s. -/
theorem ReadFrom_concat (k : KernelConstants) (A B : List (Fin 256)) (tr : List Int)
    (err : Option String) (hA60 : 60 ≤ A.length) (hB60 : 60 ≤ B.length)
    (hAmagic : u32 A 0 = k.kMagicProgramFile)
    (hAmin : k.kMinSupportedKernelFormatVersion ≤ u32 A 4)
    (hAmax : u32 A 4 ≤ k.kMaxSupportedKernelFormatVersion)
    (hAtrailer : u32 A (A.length - 4) = A.length)
    (hBtrailer : u32 B (B.length - 4) = B.length)
    (hBidx : 4 * (u32 B (B.length - 8) + 10) ≤ B.length) :
    Program.ReadFrom k ⟨A ++ B, 0, tr⟩ err =
      .returned (some
        { binary_version_ := u32 A 4
          kernel_data_ := A ++ B
          single_program_ := false
          library_count_ := u32 B (B.length - 8)
          source_table_offset_ := u32 B (B.length - 4 * (u32 B (B.length - 8) + 10))
          name_table_offset_ := u32 B (B.length - 4 * (u32 B (B.length - 8) + 9))
          metadata_payloads_offset_ := u32 B (B.length - 4 * (u32 B (B.length - 8) + 8))
          metadata_mappings_offset_ := u32 B (B.length - 4 * (u32 B (B.length - 8) + 7))
          string_table_offset_ := u32 B (B.length - 4 * (u32 B (B.length - 8) + 6))
          constant_table_offset_ := u32 B (B.length - 4 * (u32 B (B.length - 8) + 5))
          main_method_reference_ :=
            NameIndex.mk ((u32 B (B.length - 4 * (u32 B (B.length - 8) + 4)) +
              2 ^ 32 - 1) % 2 ^ 32) })
        err
        ⟨A ++ B, ((A ++ B).length : Int) - 4 * (u32 B (B.length - 8) + 3),
          tr ++ [0, 4, ((A ++ B).length : Int) - 4, (A.length : Int) - 4,
            ((A ++ B).length : Int) - 8,
            ((A ++ B).length : Int) - 4 * (u32 B (B.length - 8) + 10),
            ((A ++ B).length : Int) - 4 * (u32 B (B.length - 8) + 9),
            ((A ++ B).length : Int) - 4 * (u32 B (B.length - 8) + 8),
            ((A ++ B).length : Int) - 4 * (u32 B (B.length - 8) + 7),
            ((A ++ B).length : Int) - 4 * (u32 B (B.length - 8) + 6),
            ((A ++ B).length : Int) - 4 * (u32 B (B.length - 8) + 5),
            ((A ++ B).length : Int) - 4 * (u32 B (B.length - 8) + 4)]⟩ := by
  have hlen : (A ++ B).length = A.length + B.length := List.length_append A B
  have h0 : u32 (A ++ B) 0 = k.kMagicProgramFile := by
    rw [u32_append_left A B 0 (by omega)]; exact hAmagic
  have h4 : u32 (A ++ B) 4 = u32 A 4 := u32_append_left A B 4 (by omega)
  have hB : ∀ q, q ≤ B.length → u32 (A ++ B) ((A ++ B).length - q) = u32 B (B.length - q) := by
    intro q hq
    rw [hlen, show A.length + B.length - q = A.length + (B.length - q) by omega,
      u32_append_right]
  have he1 : u32 (A ++ B) ((A ++ B).length - 4) = B.length := by
    rw [hB 4 (by omega)]; exact hBtrailer
  have he2 : u32 (A ++ B) ((A ++ B).length - B.length - 4) = A.length := by
    rw [hlen, show A.length + B.length - B.length - 4 = A.length - 4 by omega,
      u32_append_left A B _ (by omega)]
    exact hAtrailer
  rw [ReadFrom_eq_closedForm]
  unfold closedForm
  simp only [Int.toNat_zero, Nat.zero_add]
  rw [he1, he2, h4, if_neg (by omega), if_neg (by omega), if_neg (not_not.mpr h0),
    if_neg (by omega), if_neg (by omega), if_neg (by omega), if_neg (by omega),
    if_neg (by omega)]
  unfold tailClosedForm
  simp only []
  rw [hB 8 (by omega), if_pos (by omega),
    hB (4 * (u32 B (B.length - 8) + 10)) (by omega),
    hB (4 * (u32 B (B.length - 8) + 9)) (by omega),
    hB (4 * (u32 B (B.length - 8) + 8)) (by omega),
    hB (4 * (u32 B (B.length - 8) + 7)) (by omega),
    hB (4 * (u32 B (B.length - 8) + 6)) (by omega),
    hB (4 * (u32 B (B.length - 8) + 5)) (by omega),
    hB (4 * (u32 B (B.length - 8) + 4)) (by omega)]
  congr 2
  simp only [List.append_assoc, List.cons_append, List.nil_append, List.singleton_append]
  congr 1
  simp only [List.cons.injEq, and_true, true_and]
  rw [hlen]
  push_cast
  exact ⟨trivial, by omega⟩

/-! ## Claims -/

/-- C1: round trip on a well-formed single program. For a byte range of size
`n ≥ 60` with the magic at 0, a supported version `v` at 4, the trailer
`u32 (n - 4) = n` and `L = u32 (n - 8)` with `4 * (L + 10) ≤ n`, `ReadFrom`
with the cursor at 0 returns a `Program` with `binary_version = v`,
`single_program = true`, `library_count = L`, the six table offsets read at
`n - 4 * (L + 10)`, ..., `n - 4 * (L + 5)`, and `main_method_reference` built
from the 32-bit difference `u32 (n - 4 * (L + 4)) - 1`; the error slot is left
as it was. -/
theorem C1_roundtrip_single_program (k : KernelConstants) (buf : List (Fin 256))
    (tr : List Int) (err : Option String) (n v L : Nat)
    (hn : buf.length = n) (h60 : 60 ≤ n)
    (hmagic : u32 buf 0 = k.kMagicProgramFile) (hv : u32 buf 4 = v)
    (hmin : k.kMinSupportedKernelFormatVersion ≤ v)
    (hmax : v ≤ k.kMaxSupportedKernelFormatVersion)
    (htrailer : u32 buf (n - 4) = n) (hL : u32 buf (n - 8) = L)
    (hidx : 4 * (L + 10) ≤ n) :
    Program.ReadFrom k ⟨buf, 0, tr⟩ err =
      .returned (some
        { binary_version_ := v
          kernel_data_ := buf
          single_program_ := true
          library_count_ := L
          source_table_offset_ := u32 buf (n - 4 * (L + 10))
          name_table_offset_ := u32 buf (n - 4 * (L + 9))
          metadata_payloads_offset_ := u32 buf (n - 4 * (L + 8))
          metadata_mappings_offset_ := u32 buf (n - 4 * (L + 7))
          string_table_offset_ := u32 buf (n - 4 * (L + 6))
          constant_table_offset_ := u32 buf (n - 4 * (L + 5))
          main_method_reference_ :=
            NameIndex.mk ((u32 buf (n - 4 * (L + 4)) + 2 ^ 32 - 1) % 2 ^ 32) })
        err
        ⟨buf, (n : Int) - 4 * (L + 3),
          tr ++ [0, 4, (n : Int) - 4, (n : Int) - 8, (n : Int) - 4 * (L + 10),
            (n : Int) - 4 * (L + 9), (n : Int) - 4 * (L + 8), (n : Int) - 4 * (L + 7),
            (n : Int) - 4 * (L + 6), (n : Int) - 4 * (L + 5), (n : Int) - 4 * (L + 4)]⟩ := by
  subst hn hv hL
  rw [ReadFrom_eq_closedForm]
  unfold closedForm
  simp only [Int.toNat_zero, Nat.zero_add]
  rw [if_neg (by omega), if_neg (by omega), if_neg (not_not.mpr hmagic), if_neg (by omega),
    if_neg (by omega), if_neg (by omega), if_pos (by omega)]
  unfold tailClosedForm
  simp only []
  rw [if_pos hidx]
  simp [Program.new]

/-- Witness of C1 on the 60-byte sample container. -/
theorem C1_roundtrip_single_program_witness :
    Program.ReadFrom sampleConstants ⟨sampleContainer 18 0 0 60, 0, []⟩ none =
      .returned (some
        { binary_version_ := 18
          kernel_data_ := sampleContainer 18 0 0 60
          single_program_ := true
          library_count_ := 0
          source_table_offset_ := 8
          name_table_offset_ := 9
          metadata_payloads_offset_ := 10
          metadata_mappings_offset_ := 11
          string_table_offset_ := 12
          constant_table_offset_ := 13
          main_method_reference_ := NameIndex.kInvalidName })
        none ⟨sampleContainer 18 0 0 60, 48, [0, 4, 56, 52, 20, 24, 28, 32, 36, 40, 44]⟩ :=
  C1_roundtrip_single_program sampleConstants (sampleContainer 18 0 0 60) [] none 60 18 0
    (by decide) (by decide) (by decide) (by decide) (by decide) (by decide) (by decide)
    (by decide) (by decide)

/-- C2, the code at a failing input: on the 60-byte sample container with
`library_count = 6` the header and trailer are valid, and the read of
`source_table_offset` is at position `60 - 4 * (6 + 10) = -4`, before the start
of the range. The call ends with neither a `Program` nor one of the four
errors. -/
theorem C2_tail_index_read_before_start :
    Program.ReadFrom sampleConstants (Reader.ofTypedData (sampleContainer 18 1 6 60)) none =
      .outOfRange ⟨sampleContainer 18 1 6 60, 0, [0, 4, 56, 52, -4]⟩ := by
  unfold Reader.ofTypedData
  rw [ReadFrom_eq_closedForm]
  decide

/-- C3: concatenation detection. Let `A` and `B` be containers of at least 60
bytes, each ending with a trailer equal to its own length and with its tail
index inside it, and let `A` start with the magic and a supported version.
Then `ReadFrom` (cursor at 0) on `A ++ B` returns a `Program` with
`single_program = false`, and on `A` alone a `Program` with
`single_program = true`. The magic and version of `B` are not needed. -/
theorem C3_concatenation_detected (k : KernelConstants) (A B : List (Fin 256))
    (tr : List Int) (err : Option String)
    (hA60 : 60 ≤ A.length) (hB60 : 60 ≤ B.length)
    (hAmagic : u32 A 0 = k.kMagicProgramFile)
    (hAmin : k.kMinSupportedKernelFormatVersion ≤ u32 A 4)
    (hAmax : u32 A 4 ≤ k.kMaxSupportedKernelFormatVersion)
    (hAtrailer : u32 A (A.length - 4) = A.length)
    (hBtrailer : u32 B (B.length - 4) = B.length)
    (hAidx : 4 * (u32 A (A.length - 8) + 10) ≤ A.length)
    (hBidx : 4 * (u32 B (B.length - 8) + 10) ≤ B.length) :
    (∃ p r, Program.ReadFrom k ⟨A ++ B, 0, tr⟩ err = .returned (some p) err r ∧
        p.single_program_ = false) ∧
      (∃ p r, Program.ReadFrom k ⟨A, 0, tr⟩ err = .returned (some p) err r ∧
        p.single_program_ = true) := by
  constructor
  · have hlen : (A ++ B).length = A.length + B.length := List.length_append A B
    have h0 : u32 (A ++ B) 0 = k.kMagicProgramFile := by
      rw [u32_append_left A B 0 (by omega)]; exact hAmagic
    have h4 : u32 (A ++ B) 4 = u32 A 4 := u32_append_left A B 4 (by omega)
    have he1 : u32 (A ++ B) ((A ++ B).length - 4) = B.length := by
      rw [hlen, show A.length + B.length - 4 = A.length + (B.length - 4) by omega,
        u32_append_right]
      exact hBtrailer
    have he2 : u32 (A ++ B) ((A ++ B).length - B.length - 4) = A.length := by
      rw [hlen, show A.length + B.length - B.length - 4 = A.length - 4 by omega,
        u32_append_left A B _ (by omega)]
      exact hAtrailer
    have hL : u32 (A ++ B) ((A ++ B).length - 8) = u32 B (B.length - 8) := by
      rw [hlen, show A.length + B.length - 8 = A.length + (B.length - 8) by omega,
        u32_append_right]
    have key := ReadFrom_eq_closedForm k (A ++ B) 0 tr err
    unfold closedForm at key
    simp only [Int.toNat_zero, Nat.zero_add] at key
    rw [he1, he2, h4, if_neg (by omega), if_neg (by omega), if_neg (not_not.mpr h0),
      if_neg (by omega), if_neg (by omega), if_neg (by omega), if_neg (by omega),
      if_neg (by omega)] at key
    unfold tailClosedForm at key
    simp only [] at key
    rw [hL, if_pos (by omega)] at key
    exact ⟨_, _, key, rfl⟩
  · have key := ReadFrom_eq_closedForm k A 0 tr err
    unfold closedForm at key
    simp only [Int.toNat_zero, Nat.zero_add] at key
    rw [hAtrailer, if_neg (by omega), if_neg (by omega), if_neg (not_not.mpr hAmagic),
      if_neg (by omega), if_neg (by omega), if_neg (by omega), if_pos (by omega)] at key
    unfold tailClosedForm at key
    simp only [] at key
    rw [if_pos hAidx] at key
    exact ⟨_, _, key, rfl⟩

/-- Witness of C3: two 60-byte sample containers; the second one carries a
version outside the supported range. -/
theorem C3_concatenation_detected_witness :
    (∃ p r, Program.ReadFrom sampleConstants
        ⟨sampleContainer 18 1 0 60 ++ sampleContainer 77 5 0 60, 0, []⟩ none =
          .returned (some p) none r ∧ p.single_program_ = false) ∧
      (∃ p r, Program.ReadFrom sampleConstants ⟨sampleContainer 18 1 0 60, 0, []⟩ none =
          .returned (some p) none r ∧ p.single_program_ = true) :=
  C3_concatenation_detected sampleConstants (sampleContainer 18 1 0 60)
    (sampleContainer 77 5 0 60) [] none (by decide) (by decide) (by decide) (by decide)
    (by decide) (by decide) (by decide) (by decide) (by decide)

/-- C4, counterexample to the claim as stated: on the 60-byte sample container
the terminal trailer is `60 > 60 - 4`, the magic and version are valid, and
`ReadFrom` returns a `Program` and raises no error. -/
theorem C4_trailer_above_prefix_counterexample :
    60 ≤ (sampleContainer 18 1 0 60).length ∧
      u32 (sampleContainer 18 1 0 60) 0 = sampleConstants.kMagicProgramFile ∧
      sampleConstants.kMinSupportedKernelFormatVersion ≤ u32 (sampleContainer 18 1 0 60) 4 ∧
      u32 (sampleContainer 18 1 0 60) 4 ≤ sampleConstants.kMaxSupportedKernelFormatVersion ∧
      u32 (sampleContainer 18 1 0 60) ((sampleContainer 18 1 0 60).length - 4) >
        (sampleContainer 18 1 0 60).length - 4 ∧
      ¬ (Program.ReadFrom sampleConstants ⟨sampleContainer 18 1 0 60, 0, []⟩
          (some "")).failsWith kKernelInvalidSizeIndicated ∧
      ∃ p r, Program.ReadFrom sampleConstants ⟨sampleContainer 18 1 0 60, 0, []⟩ (some "") =
        .returned (some p) (some "") r := by
  refine ⟨by decide, by decide, by decide, by decide, by decide, ?_, ?_⟩
  · rw [ReadFrom_eq_closedForm]
    decide
  · rw [ReadFrom_eq_closedForm]
    exact ⟨_, _, rfl⟩

/-- C4, amended: with at least 60 bytes, a valid magic and a supported
version, a terminal trailer `e = u32 (n - 4)` greater than the size `n` makes
`ReadFrom` (cursor at 0) return `nullptr` with the invalid-size-indicated
message: the start offset `n - e`, taken from the position just after the
trailer, is negative. -/
theorem C4_trailer_above_size (k : KernelConstants) (buf : List (Fin 256)) (tr : List Int)
    (err : Option String) (n : Nat) (hn : buf.length = n) (h60 : 60 ≤ n)
    (hmagic : u32 buf 0 = k.kMagicProgramFile)
    (hmin : k.kMinSupportedKernelFormatVersion ≤ u32 buf 4)
    (hmax : u32 buf 4 ≤ k.kMaxSupportedKernelFormatVersion)
    (htrailer : n < u32 buf (n - 4)) :
    Program.ReadFrom k ⟨buf, 0, tr⟩ err =
      .returned none (setError err kKernelInvalidSizeIndicated)
        ⟨buf, n, tr ++ [0, 4, (n : Int) - 4]⟩ := by
  subst hn
  rw [ReadFrom_eq_closedForm]
  unfold closedForm
  simp only [Int.toNat_zero, Nat.zero_add]
  rw [if_neg (by omega), if_neg (by omega), if_neg (not_not.mpr hmagic), if_neg (by omega),
    if_neg (by omega), if_pos htrailer]
  rfl

/-- Witness of C4 amended: a 60-byte container whose trailer says 61. -/
theorem C4_trailer_above_size_witness :
    Program.ReadFrom sampleConstants ⟨sampleContainer 18 1 0 61, 0, []⟩ (some "") =
      .returned none (some kKernelInvalidSizeIndicated)
        ⟨sampleContainer 18 1 0 61, 60, [0, 4, 56]⟩ :=
  C4_trailer_above_size sampleConstants (sampleContainer 18 1 0 61) [] (some "") 60
    (by decide) (by decide) (by decide) (by decide) (by decide) (by decide)

/-- C5: on a reader over fewer than 60 bytes `ReadFrom` returns `nullptr`,
stores the file-too-small message in the error slot when the slot is not
null, and leaves the reader as it was: same cursor, no read logged. -/
theorem C5_file_too_small (k : KernelConstants) (reader : Reader) (err : Option String)
    (hsmall : reader.typed_data.length < 60) :
    Program.ReadFrom k reader err =
      .returned none (setError err kKernelInvalidFilesize) reader := by
  unfold Program.ReadFrom
  simp only [Reader.size]
  rw [if_pos (by omega)]

/-- Witness of C5 on a 59-byte range that starts with the magic. -/
theorem C5_file_too_small_witness :
    Program.ReadFrom sampleConstants
        ⟨(sampleContainer 18 0 0 60).take 59, 0, []⟩ (some "") =
      .returned none (some kKernelInvalidFilesize)
        ⟨(sampleContainer 18 0 0 60).take 59, 0, []⟩ :=
  C5_file_too_small sampleConstants ⟨(sampleContainer 18 0 0 60).take 59, 0, []⟩ (some "")
    (by decide)

/-- C6: on a byte range of at least 60 bytes whose first four bytes are not
the magic, `ReadFrom` with the cursor at 0 returns `nullptr` with the
invalid-magic message, after the single read at position 0. -/
theorem C6_invalid_magic (k : KernelConstants) (buf : List (Fin 256)) (tr : List Int)
    (err : Option String) (h60 : 60 ≤ buf.length)
    (hmagic : u32 buf 0 ≠ k.kMagicProgramFile) :
    Program.ReadFrom k ⟨buf, 0, tr⟩ err =
      .returned none (setError err kKernelInvalidMagicIdentifier) ⟨buf, 4, tr ++ [0]⟩ := by
  rw [ReadFrom_eq_closedForm]
  unfold closedForm
  simp only [Int.toNat_zero]
  rw [if_neg (by omega), if_neg (by omega), if_pos hmagic]
  rfl

/-- Witness of C6: 60 zero bytes. -/
theorem C6_invalid_magic_witness :
    Program.ReadFrom sampleConstants ⟨List.replicate 60 0, 0, []⟩ (some "") =
      .returned none (some kKernelInvalidMagicIdentifier) ⟨List.replicate 60 0, 4, [0]⟩ :=
  C6_invalid_magic sampleConstants (List.replicate 60 0) [] (some "") (by decide) (by decide)

/-- C7: with at least 60 bytes and a valid magic, `ReadFrom` (cursor at 0)
ends with the invalid-version message exactly when the value `v` at offset 4
is below the minimum or above the maximum supported version; it does so
whatever the rest of the range holds, and a `v` equal to either bound is not
rejected as an invalid version. -/
theorem C7_invalid_version_iff (k : KernelConstants) (buf : List (Fin 256)) (tr : List Int)
    (s : String) (h60 : 60 ≤ buf.length) (hmagic : u32 buf 0 = k.kMagicProgramFile) :
    ((Program.ReadFrom k ⟨buf, 0, tr⟩ (some s)).failsWith kKernelInvalidBinaryFormatVersion ↔
        (u32 buf 4 < k.kMinSupportedKernelFormatVersion ∨
          u32 buf 4 > k.kMaxSupportedKernelFormatVersion)) ∧
      ((u32 buf 4 < k.kMinSupportedKernelFormatVersion ∨
          u32 buf 4 > k.kMaxSupportedKernelFormatVersion) →
        ∀ err, Program.ReadFrom k ⟨buf, 0, tr⟩ err =
          .returned none (setError err kKernelInvalidBinaryFormatVersion)
            ⟨buf, 8, tr ++ [0, 4]⟩) ∧
      (k.kMinSupportedKernelFormatVersion ≤ k.kMaxSupportedKernelFormatVersion →
        (u32 buf 4 = k.kMinSupportedKernelFormatVersion ∨
          u32 buf 4 = k.kMaxSupportedKernelFormatVersion) →
        ¬ (Program.ReadFrom k ⟨buf, 0, tr⟩ (some s)).failsWith
          kKernelInvalidBinaryFormatVersion) := by
  have hbad : (u32 buf 4 < k.kMinSupportedKernelFormatVersion ∨
      u32 buf 4 > k.kMaxSupportedKernelFormatVersion) →
      ∀ err, Program.ReadFrom k ⟨buf, 0, tr⟩ err =
        .returned none (setError err kKernelInvalidBinaryFormatVersion)
          ⟨buf, 8, tr ++ [0, 4]⟩ := by
    intro hv err
    rw [ReadFrom_eq_closedForm]
    unfold closedForm
    simp only [Int.toNat_zero, Nat.zero_add]
    rw [if_neg (by omega), if_neg (by omega), if_neg (not_not.mpr hmagic), if_neg (by omega),
      if_pos hv]
    rfl
  have hgood : ¬ (u32 buf 4 < k.kMinSupportedKernelFormatVersion ∨
      u32 buf 4 > k.kMaxSupportedKernelFormatVersion) →
      ¬ (Program.ReadFrom k ⟨buf, 0, tr⟩ (some s)).failsWith
        kKernelInvalidBinaryFormatVersion := by
    intro hv
    rw [ReadFrom_eq_closedForm]
    unfold closedForm
    simp only [Int.toNat_zero, Nat.zero_add]
    rw [if_neg (by omega), if_neg (by omega), if_neg (not_not.mpr hmagic), if_neg (by omega),
      if_neg hv]
    unfold tailClosedForm
    simp only []
    split_ifs <;> simp [Outcome.failsWith, setError, messages_distinct]
  refine ⟨⟨fun h => ?_, fun h => ?_⟩, hbad, fun hle h => hgood (by omega)⟩
  · by_contra hv
    exact hgood hv h
  · rw [hbad h]
    simp [Outcome.failsWith, setError]

/-- Witness of C7: version 30 is above the sample maximum 29, and the trailer
`0xFFFFFFFF` is corrupt as well. -/
theorem C7_invalid_version_iff_witness :
    (Program.ReadFrom sampleConstants ⟨sampleContainer 30 0 0 0xFFFFFFFF, 0, []⟩
        (some "")).failsWith kKernelInvalidBinaryFormatVersion :=
  (C7_invalid_version_iff sampleConstants (sampleContainer 30 0 0 0xFFFFFFFF) [] ""
    (by decide) (by decide)).1.2 (by decide)

/-- C8: main method reference bias. Whenever `ReadFrom` returns a `Program`,
the last 4-byte read, at the position 4 before the final cursor, gives the
raw value `raw`, and the decoded `main_method_reference` is the absent value
`NameIndex(-1)` exactly when `raw = 0`, and is the index `raw - 1` whenever
`raw ≥ 1`. -/
theorem C8_main_method_reference_bias (k : KernelConstants) (reader : Reader)
    (err e : Option String) (p : Program) (r : Reader)
    (h : Program.ReadFrom k reader err = .returned (some p) e r) :
    ∃ raw, r.ReadUInt32At (r.offset_ - 4) = some raw ∧
      r.reads.getLast? = some (r.offset_ - 4) ∧
      (p.main_method_reference_ = NameIndex.kInvalidName ↔ raw = 0) ∧
      (1 ≤ raw → p.main_method_reference_ = NameIndex.mk (raw - 1)) := by
  obtain ⟨buf, o, tr⟩ := reader
  obtain ⟨h60, _, _, _, _, _, _, _, trw, htail⟩ :=
    ReadFrom_returned_program_inv k buf o tr err e p r h
  obtain ⟨hidx, _, _, _, hmain, hbuf, hoff, hlast⟩ :=
    tailClosedForm_returned_inv _ buf trw err e p r htail
  have hraw := u32_lt buf (buf.length - 4 * (u32 buf (buf.length - 8) + 4))
  refine ⟨u32 buf (buf.length - 4 * (u32 buf (buf.length - 8) + 4)), ?_, ?_, ?_, ?_⟩
  · unfold Reader.ReadUInt32At Reader.size
    rw [hbuf, hoff, if_pos (by omega)]
    congr 2
    omega
  · rw [hlast, hoff]
    congr 1
    omega
  · rw [hmain]
    unfold NameIndex.kInvalidName
    rw [NameIndex.mk.injEq]
    omega
  · intro h1
    rw [hmain, NameIndex.mk.injEq]
    omega

/-- Witness of C8: the 60-byte sample container with raw main method
reference 1, which decodes to index 0. -/
theorem C8_main_method_reference_bias_witness :
    ∃ raw, Reader.ReadUInt32At
        ⟨sampleContainer 18 1 0 60, 48, [0, 4, 56, 52, 20, 24, 28, 32, 36, 40, 44]⟩
        ((48 : Int) - 4) = some raw ∧
      [(0 : Int), 4, 56, 52, 20, 24, 28, 32, 36, 40, 44].getLast? = some ((48 : Int) - 4) ∧
      ((NameIndex.mk 0) = NameIndex.kInvalidName ↔ raw = 0) ∧
      (1 ≤ raw → (NameIndex.mk 0) = NameIndex.mk (raw - 1)) :=
  C8_main_method_reference_bias sampleConstants ⟨sampleContainer 18 1 0 60, 0, []⟩ none none
    { binary_version_ := 18
      kernel_data_ := sampleContainer 18 1 0 60
      single_program_ := true
      library_count_ := 0
      source_table_offset_ := 8
      name_table_offset_ := 9
      metadata_payloads_offset_ := 10
      metadata_mappings_offset_ := 11
      string_table_offset_ := 12
      constant_table_offset_ := 13
      main_method_reference_ := ⟨0⟩ }
    ⟨sampleContainer 18 1 0 60, 48, [0, 4, 56, 52, 20, 24, 28, 32, 36, 40, 44]⟩
    (by rw [ReadFrom_eq_closedForm]; decide)

/-- C9, the code at a failing input: on the 60-byte sample container with a
terminal trailer of `0` the walk reads position 56 twice and `ReadFrom` returns
a `Program` with `single_program = false`. -/
theorem C9_zero_trailer_counted_twice :
    u32 (sampleContainer 18 1 0 0) 56 = 0 ∧
      Program.ReadFrom sampleConstants (Reader.ofTypedData (sampleContainer 18 1 0 0)) none =
        .returned (some
          { binary_version_ := 18
            kernel_data_ := sampleContainer 18 1 0 0
            single_program_ := false
            library_count_ := 0
            source_table_offset_ := 8
            name_table_offset_ := 9
            metadata_payloads_offset_ := 10
            metadata_mappings_offset_ := 11
            string_table_offset_ := 12
            constant_table_offset_ := 13
            main_method_reference_ := ⟨0⟩ })
          none
          ⟨sampleContainer 18 1 0 0, 48, [0, 4, 56, 56, 52, 20, 24, 28, 32, 36, 40, 44]⟩ := by
  refine ⟨by decide, ?_⟩
  unfold Reader.ofTypedData
  rw [ReadFrom_eq_closedForm]
  decide

/-- C10: no partially built `Program` escapes and errors are reported
faithfully. For a call on the reader `⟨buf, o, tr⟩` with error slot `err`,
write `n` for the size, `m` and `v` for the values at the cursor and 4 after
it, `e1 = u32 (n - 4)` and `e2 = u32 (n - e1 - 4)`. Each detected failure makes
the call return `nullptr` with the slot, when not null, set to the message of
that failure: size below 60; magic mismatch; version out of range; a trailer
with a negative start offset (`n < e1`, or `e1 + 4 < n` and `n - e1 < e2`), the
`Program` allocated by then being dropped. When none of the four is detected,
a call that returns gives a `Program` and leaves the slot unchanged. -/
theorem C10_errors_reported_faithfully (k : KernelConstants) (buf : List (Fin 256))
    (o : Int) (tr : List Int) (err : Option String) :
    let n := buf.length
    let m := u32 buf o.toNat
    let v := u32 buf (o.toNat + 4)
    let e1 := u32 buf (n - 4)
    let e2 := u32 buf (n - e1 - 4)
    let tooSmall := n < 60
    let badMagic := 60 ≤ n ∧ 0 ≤ o ∧ o + 4 ≤ n ∧ m ≠ k.kMagicProgramFile
    let badVersion := 60 ≤ n ∧ 0 ≤ o ∧ o + 8 ≤ n ∧ m = k.kMagicProgramFile ∧
      (v < k.kMinSupportedKernelFormatVersion ∨ v > k.kMaxSupportedKernelFormatVersion)
    let badSize := 60 ≤ n ∧ 0 ≤ o ∧ o + 8 ≤ n ∧ m = k.kMagicProgramFile ∧
      k.kMinSupportedKernelFormatVersion ≤ v ∧ v ≤ k.kMaxSupportedKernelFormatVersion ∧
      (n < e1 ∨ (e1 + 4 < n ∧ n - e1 < e2))
    (tooSmall → ∃ r, Program.ReadFrom k ⟨buf, o, tr⟩ err =
        .returned none (setError err kKernelInvalidFilesize) r) ∧
      (badMagic → ∃ r, Program.ReadFrom k ⟨buf, o, tr⟩ err =
        .returned none (setError err kKernelInvalidMagicIdentifier) r) ∧
      (badVersion → ∃ r, Program.ReadFrom k ⟨buf, o, tr⟩ err =
        .returned none (setError err kKernelInvalidBinaryFormatVersion) r) ∧
      (badSize → ∃ r, Program.ReadFrom k ⟨buf, o, tr⟩ err =
        .returned none (setError err kKernelInvalidSizeIndicated) r) ∧
      (¬ tooSmall ∧ ¬ badMagic ∧ ¬ badVersion ∧ ¬ badSize →
        ∀ p e r, Program.ReadFrom k ⟨buf, o, tr⟩ err = .returned p e r →
          p ≠ none ∧ e = err) := by
  dsimp only
  have hcf := ReadFrom_eq_closedForm k buf o tr err
  unfold closedForm at hcf
  simp only [] at hcf
  refine ⟨?_, ?_, ?_, ?_, ?_⟩
  · intro h
    rw [hcf, if_pos h]
    exact ⟨_, rfl⟩
  · rintro ⟨h60, ho, ho4, hm⟩
    rw [hcf, if_neg (by omega), if_neg (by omega), if_pos hm]
    exact ⟨_, rfl⟩
  · rintro ⟨h60, ho, ho8, hm, hv⟩
    rw [hcf, if_neg (by omega), if_neg (by omega), if_neg (not_not.mpr hm),
      if_neg (by omega), if_pos hv]
    exact ⟨_, rfl⟩
  · rintro ⟨h60, ho, ho8, hm, hmin, hmax, hsize⟩
    rw [hcf, if_neg (by omega), if_neg (by omega), if_neg (not_not.mpr hm),
      if_neg (by omega), if_neg (by omega)]
    by_cases c6 : buf.length < u32 buf (buf.length - 4)
    · rw [if_pos c6]
      exact ⟨_, rfl⟩
    · rw [if_neg c6, if_neg (by omega), if_pos (by omega)]
      exact ⟨_, rfl⟩
  · rintro ⟨h1, h2, h3, h4⟩ p e r hret
    cases p with
    | some p =>
      obtain ⟨_, _, _, _, _, _, _, _, trw, htail⟩ :=
        ReadFrom_returned_program_inv k buf o tr err e p r hret
      exact ⟨by simp, (tailClosedForm_returned_inv _ buf trw err e p r htail).2.1⟩
    | none =>
      exfalso
      rw [hcf] at hret
      by_cases c1 : buf.length < 60
      · exact h1 c1
      rw [if_neg c1] at hret
      by_cases c2 : o < 0 ∨ (buf.length : Int) < o + 4
      · rw [if_pos c2] at hret
        exact Outcome.noConfusion hret
      rw [if_neg c2] at hret
      by_cases c3 : u32 buf o.toNat ≠ k.kMagicProgramFile
      · exact h2 ⟨by omega, by omega, by omega, c3⟩
      rw [if_neg c3] at hret
      by_cases c4 : (buf.length : Int) < o + 8
      · rw [if_pos c4] at hret
        exact Outcome.noConfusion hret
      rw [if_neg c4] at hret
      by_cases c5 : u32 buf (o.toNat + 4) < k.kMinSupportedKernelFormatVersion ∨
          u32 buf (o.toNat + 4) > k.kMaxSupportedKernelFormatVersion
      · exact h3 ⟨by omega, by omega, by omega, not_not.mp c3, c5⟩
      rw [if_neg c5] at hret
      by_cases c6 : buf.length < u32 buf (buf.length - 4)
      · exact h4 ⟨by omega, by omega, by omega, not_not.mp c3, by omega, by omega, Or.inl c6⟩
      rw [if_neg c6] at hret
      by_cases c7 : buf.length ≤ u32 buf (buf.length - 4) + 4
      · rw [if_pos c7] at hret
        exact tailClosedForm_ne_nullptr _ _ _ _ _ _ hret
      rw [if_neg c7] at hret
      by_cases c8 : buf.length - u32 buf (buf.length - 4) <
          u32 buf (buf.length - u32 buf (buf.length - 4) - 4)
      · exact h4 ⟨by omega, by omega, by omega, not_not.mp c3, by omega, by omega,
          Or.inr ⟨by omega, c8⟩⟩
      rw [if_neg c8] at hret
      exact tailClosedForm_ne_nullptr _ _ _ _ _ _ hret

/-- Witness of C10 on a container whose trailer says 61 bytes for 60: the
invalid-size failure, detected after the allocation, returns `nullptr`. -/
theorem C10_errors_reported_faithfully_witness :
    ∃ r, Program.ReadFrom sampleConstants ⟨sampleContainer 18 1 0 61, 0, []⟩ (some "") =
      .returned none (some kKernelInvalidSizeIndicated) r :=
  (C10_errors_reported_faithfully sampleConstants (sampleContainer 18 1 0 61) 0 []
    (some "")).2.2.2.1 (by decide)

/-- C11: idempotence of decoding. Two calls of `ReadFromTypedData` on the same
byte range, each with its own fresh reader and its own error slot, end the
same way: both return the same `Program` (equal field for field) and leave
their slots unchanged, or both return `nullptr` with the same message stored
in each non-null slot, or both perform the same out-of-range read. The reader
is left over the same, unmodified byte range, and a returned `Program` refers
to that byte range. -/
theorem C11_decoding_idempotent (k : KernelConstants) (typed_data : List (Fin 256))
    (err1 err2 : Option String) :
    (∃ p r, Program.ReadFromTypedData k typed_data err1 = .returned (some p) err1 r ∧
        Program.ReadFromTypedData k typed_data err2 = .returned (some p) err2 r ∧
        r.typed_data = typed_data ∧ p.kernel_data_ = typed_data) ∨
      (∃ message r,
        Program.ReadFromTypedData k typed_data err1 =
          .returned none (setError err1 message) r ∧
        Program.ReadFromTypedData k typed_data err2 =
          .returned none (setError err2 message) r ∧
        r.typed_data = typed_data) ∨
      (∃ r, Program.ReadFromTypedData k typed_data err1 = .outOfRange r ∧
        Program.ReadFromTypedData k typed_data err2 = .outOfRange r ∧
        r.typed_data = typed_data) := by
  unfold Program.ReadFromTypedData Reader.ofTypedData
  rw [ReadFrom_eq_closedForm, ReadFrom_eq_closedForm]
  rcases closedForm_cases k typed_data 0 [] with ⟨p, r, hr, hp, h⟩ | ⟨m, r, hr, h⟩ | ⟨r, hr, h⟩
  · exact Or.inl ⟨p, r, h err1, h err2, hr, hp⟩
  · exact Or.inr (Or.inl ⟨m, r, h err1, h err2, hr⟩)
  · exact Or.inr (Or.inr ⟨r, h err1, h err2, hr⟩)

/-- C12: exact condition of the invalid-size-indicated failure. With at least
60 bytes, a valid magic and a supported version, and `e1 = u32 (n - 4)`,
`ReadFrom` (cursor at 0) ends with the invalid-size-indicated message exactly
when `e1 > n`, or `e1 < n - 4` and `u32 (n - e1 - 4) > n - e1`: the start offset
of a container is the position just after its trailer minus the trailer
value, and a trailer is rejected exactly when that start offset is negative.
In that case the call returns `nullptr` whatever the error slot. -/
theorem C12_invalid_size_iff (k : KernelConstants) (buf : List (Fin 256)) (tr : List Int)
    (s : String) (n : Nat) (hn : buf.length = n) (h60 : 60 ≤ n)
    (hmagic : u32 buf 0 = k.kMagicProgramFile)
    (hmin : k.kMinSupportedKernelFormatVersion ≤ u32 buf 4)
    (hmax : u32 buf 4 ≤ k.kMaxSupportedKernelFormatVersion) :
    ((Program.ReadFrom k ⟨buf, 0, tr⟩ (some s)).failsWith kKernelInvalidSizeIndicated ↔
        (n < u32 buf (n - 4) ∨
          (u32 buf (n - 4) < n - 4 ∧
            n - u32 buf (n - 4) < u32 buf (n - u32 buf (n - 4) - 4)))) ∧
      ((n < u32 buf (n - 4) ∨
          (u32 buf (n - 4) < n - 4 ∧
            n - u32 buf (n - 4) < u32 buf (n - u32 buf (n - 4) - 4))) →
        ∀ err, ∃ r, Program.ReadFrom k ⟨buf, 0, tr⟩ err =
          .returned none (setError err kKernelInvalidSizeIndicated) r) := by
  subst hn
  have hcf : ∀ err, Program.ReadFrom k ⟨buf, 0, tr⟩ err = closedForm k buf 0 tr err :=
    fun err => ReadFrom_eq_closedForm k buf 0 tr err
  unfold closedForm at hcf
  simp only [Int.toNat_zero, Nat.zero_add] at hcf
  have hhead : ∀ err, Program.ReadFrom k ⟨buf, 0, tr⟩ err =
      if buf.length < u32 buf (buf.length - 4) then
        .returned none (setError err kKernelInvalidSizeIndicated)
          ⟨buf, buf.length, tr ++ [0, 0 + 4, (buf.length : Int) - 4]⟩
      else if buf.length ≤ u32 buf (buf.length - 4) + 4 then
        tailClosedForm
          { Program.new with
            binary_version_ := u32 buf 4, kernel_data_ := buf, single_program_ := true }
          buf (tr ++ [0, 0 + 4, (buf.length : Int) - 4]) err
      else if buf.length - u32 buf (buf.length - 4) <
          u32 buf (buf.length - u32 buf (buf.length - 4) - 4) then
        .returned none (setError err kKernelInvalidSizeIndicated)
          ⟨buf, (buf.length : Int) - u32 buf (buf.length - 4),
            tr ++ [0, 0 + 4, (buf.length : Int) - 4,
              (buf.length : Int) - u32 buf (buf.length - 4) - 4]⟩
      else
        tailClosedForm
          { Program.new with
            binary_version_ := u32 buf 4, kernel_data_ := buf, single_program_ := false }
          buf (tr ++ [0, 0 + 4, (buf.length : Int) - 4,
            (buf.length : Int) - u32 buf (buf.length - 4) - 4]) err := by
    intro err
    rw [hcf err, if_neg (by omega), if_neg (by omega), if_neg (not_not.mpr hmagic),
      if_neg (by omega), if_neg (by omega)]
  have htail : ∀ (program : Program) (trw : List Int),
      ¬ (tailClosedForm program buf trw (some s)).failsWith kKernelInvalidSizeIndicated := by
    intro program trw
    unfold tailClosedForm
    simp only []
    split_ifs <;> simp [Outcome.failsWith]
  have hbad : (buf.length < u32 buf (buf.length - 4) ∨
      (u32 buf (buf.length - 4) < buf.length - 4 ∧
        buf.length - u32 buf (buf.length - 4) <
          u32 buf (buf.length - u32 buf (buf.length - 4) - 4))) →
      ∀ err, ∃ r, Program.ReadFrom k ⟨buf, 0, tr⟩ err =
        .returned none (setError err kKernelInvalidSizeIndicated) r := by
    intro h err
    rw [hhead err]
    by_cases c6 : buf.length < u32 buf (buf.length - 4)
    · rw [if_pos c6]
      exact ⟨_, rfl⟩
    · rw [if_neg c6, if_neg (by omega), if_pos (by omega)]
      exact ⟨_, rfl⟩
  refine ⟨⟨fun h => ?_, fun h => ?_⟩, hbad⟩
  · rw [hhead (some s)] at h
    by_cases c6 : buf.length < u32 buf (buf.length - 4)
    · exact Or.inl c6
    rw [if_neg c6] at h
    by_cases c7 : buf.length ≤ u32 buf (buf.length - 4) + 4
    · rw [if_pos c7] at h
      exact absurd h (htail _ _)
    rw [if_neg c7] at h
    by_cases c8 : buf.length - u32 buf (buf.length - 4) <
        u32 buf (buf.length - u32 buf (buf.length - 4) - 4)
    · exact Or.inr ⟨by omega, c8⟩
    rw [if_neg c8] at h
    exact absurd h (htail _ _)
  · obtain ⟨r, hr⟩ := hbad h (some s)
    rw [hr]
    simp [Outcome.failsWith, setError]

/-- Witness of C12: a 60-byte container with terminal trailer 4 and the value
57 in the field before it; the second trailer read, at position 52, gives a
start offset of `56 - 57`. -/
theorem C12_invalid_size_iff_witness :
    (Program.ReadFrom sampleConstants ⟨sampleContainer 18 1 57 4, 0, []⟩
      (some "")).failsWith kKernelInvalidSizeIndicated :=
  (C12_invalid_size_iff sampleConstants (sampleContainer 18 1 57 4) [] "" 60
    (by decide) (by decide) (by decide) (by decide) (by decide)).1.2
    (Or.inr (by decide))

/-- C13: value of `single_program`. Whenever `ReadFrom` returns a `Program`,
the trailer walk it ran (from `size - 4`, after the two header reads, counter
at 0) finished with a counter `c` of 1 or 2. `single_program` is true exactly
when `c = 1` and the walk stopped on a cursor `≤ 0`, which is exactly when
`n - 4 ≤ u32 (n - 4) ≤ n`; it is false exactly when `c = 2`, the walk having
stopped by the counter exceeding 1 with the cursor still positive, which is
exactly when `u32 (n - 4) < n - 4`. -/
theorem C13_single_program_value (k : KernelConstants) (reader : Reader)
    (err e : Option String) (p : Program) (r : Reader)
    (h : Program.ReadFrom k reader err = .returned (some p) e r) :
    ∃ rw c,
      trailerWalk (reader.ReadUInt32.2.ReadUInt32.2.set_offset (reader.size - 4)) 0 =
        .finished rw c ∧
      (c = 1 ∨ c = 2) ∧
      (p.single_program_ = true ↔ c = 1 ∧ rw.offset ≤ 0) ∧
      (p.single_program_ = true ↔
        reader.typed_data.length - 4 ≤ u32 reader.typed_data (reader.typed_data.length - 4) ∧
          u32 reader.typed_data (reader.typed_data.length - 4) ≤ reader.typed_data.length) ∧
      (p.single_program_ = false ↔ c = 2 ∧ 0 < rw.offset) ∧
      (p.single_program_ = false ↔
        u32 reader.typed_data (reader.typed_data.length - 4) <
          reader.typed_data.length - 4) := by
  obtain ⟨buf, o, tr⟩ := reader
  obtain ⟨h60, _, _, _, _, _, he1, he2, trw, htail⟩ :=
    ReadFrom_returned_program_inv k buf o tr err e p r h
  obtain ⟨_, _, _, hsingle, _⟩ := tailClosedForm_returned_inv _ buf trw err e p r htail
  simp only [] at hsingle
  have hwalk := trailerWalk_eq buf (tr ++ [o] ++ [o + 4]) buf.length _ _ rfl (by omega) rfl rfl
  simp only [Reader.ReadUInt32, Reader.set_offset, Reader.size]
  rw [hwalk, if_neg (by omega)]
  by_cases c7 : buf.length ≤ u32 buf (buf.length - 4) + 4
  · rw [if_pos c7]
    rw [decide_eq_true c7] at hsingle
    refine ⟨_, _, rfl, Or.inl rfl, ?_, ?_, ?_, ?_⟩
    · simp only [Reader.offset, hsingle, true_iff, true_and]
      omega
    · simp only [hsingle, true_iff]
      omega
    · simp [hsingle]
    · simp only [hsingle]
      constructor
      · intro hf; cases hf
      · intro hlt; omega
  · rw [if_neg c7, if_neg (by omega)]
    rw [decide_eq_false c7] at hsingle
    refine ⟨_, _, rfl, Or.inr rfl, ?_, ?_, ?_, ?_⟩
    · simp [hsingle]
    · simp only [hsingle]
      constructor
      · intro hf; cases hf
      · intro hlt; omega
    · simp only [Reader.offset, hsingle, true_iff, true_and]
      omega
    · simp only [hsingle, true_iff]
      omega

/-- Witness of C13: the zero-trailer sample container, on which the walk stops
with the counter at 2. -/
theorem C13_single_program_value_witness :
    ∃ rw c,
      trailerWalk
          ((Reader.mk (sampleContainer 18 1 0 0) 0 []).ReadUInt32.2.ReadUInt32.2.set_offset
            ((Reader.mk (sampleContainer 18 1 0 0) 0 []).size - 4)) 0 =
        .finished rw c ∧
      (c = 1 ∨ c = 2) ∧
      (false = true ↔ c = 1 ∧ rw.offset ≤ 0) ∧
      (false = true ↔
        (sampleContainer 18 1 0 0).length - 4 ≤
            u32 (sampleContainer 18 1 0 0) ((sampleContainer 18 1 0 0).length - 4) ∧
          u32 (sampleContainer 18 1 0 0) ((sampleContainer 18 1 0 0).length - 4) ≤
            (sampleContainer 18 1 0 0).length) ∧
      (false = false ↔ c = 2 ∧ 0 < rw.offset) ∧
      (false = false ↔
        u32 (sampleContainer 18 1 0 0) ((sampleContainer 18 1 0 0).length - 4) <
          (sampleContainer 18 1 0 0).length - 4) :=
  C13_single_program_value sampleConstants ⟨sampleContainer 18 1 0 0, 0, []⟩ none none
    { binary_version_ := 18
      kernel_data_ := sampleContainer 18 1 0 0
      single_program_ := false
      library_count_ := 0
      source_table_offset_ := 8
      name_table_offset_ := 9
      metadata_payloads_offset_ := 10
      metadata_mappings_offset_ := 11
      string_table_offset_ := 12
      constant_table_offset_ := 13
      main_method_reference_ := ⟨0⟩ }
    ⟨sampleContainer 18 1 0 0, 48, [0, 4, 56, 56, 52, 20, 24, 28, 32, 36, 40, 44]⟩
    (by rw [ReadFrom_eq_closedForm]; decide)

/-- C14: the concatenation-detection walk ends after at most two trailer
reads. `trailerWalk` is a total function, so the walk ends on every input; run
as `ReadFrom` runs it, from `size - 4` with the counter at 0 and on any reader
and any content, it logs a list `l` of at most two reads, one per iteration of
the loop, and when the loop finishes the counter equals the number of
iterations. -/
theorem C14_walk_at_most_two_iterations (reader : Reader) :
    ∃ l : List Int,
      (trailerWalk (reader.set_offset (reader.size - 4)) 0).reader.reads =
        reader.reads ++ l ∧
      l.length ≤ 2 ∧
      ∀ r c, trailerWalk (reader.set_offset (reader.size - 4)) 0 = .finished r c →
        c = l.length := by
  obtain ⟨buf, o, tr⟩ := reader
  exact trailerWalk_from_zero buf _ tr

/-- C15: the reads of the validation and trailer-walk phases are in bounds.
On a byte range of `n ≥ 60` bytes, with the cursor at 0, `e1 = u32 (n - 4)` and
`L = u32 (n - 8)`, the log of reads of `ReadFrom` is `pre ++ post`. `pre` is an
initial part of `0, 4, n - 4, [n - e1 - 4,] n - 8` (magic, version, first
trailer, second trailer when it happens and then `0 < n - e1 - 4`,
`library_count`) and every position in it lies in `[0, n - 4]`. `post` holds the
reads placed by `library_count`: none, or the seven fields from
`n - 4 * (L + 10)` on, or that first one alone; a position in `post` that is
outside `[0, n - 4]` is `n - 4 * (L + 10) < 0`, and an out-of-range outcome is
that read. -/
theorem C15_validation_and_walk_reads_in_bounds (k : KernelConstants)
    (buf : List (Fin 256)) (tr : List Int) (err : Option String)
    (h60 : 60 ≤ buf.length) :
    ∃ pre post : List Int,
      (Program.ReadFrom k ⟨buf, 0, tr⟩ err).reader.reads = tr ++ pre ++ post ∧
      (pre = [0] ∨ pre = [0, 4] ∨ pre = [0, 4, (buf.length : Int) - 4] ∨
        pre = [0, 4, (buf.length : Int) - 4, (buf.length : Int) - 8] ∨
        ((0 : Int) < (buf.length : Int) - u32 buf (buf.length - 4) - 4 ∧
          (pre = [0, 4, (buf.length : Int) - 4,
              (buf.length : Int) - u32 buf (buf.length - 4) - 4] ∨
            pre = [0, 4, (buf.length : Int) - 4,
              (buf.length : Int) - u32 buf (buf.length - 4) - 4,
              (buf.length : Int) - 8]))) ∧
      (∀ q ∈ pre, 0 ≤ q ∧ q ≤ (buf.length : Int) - 4) ∧
      (post = [] ∨
        post = [(buf.length : Int) - 4 * (u32 buf (buf.length - 8) + 10)] ∨
        post = [(buf.length : Int) - 4 * (u32 buf (buf.length - 8) + 10),
          (buf.length : Int) - 4 * (u32 buf (buf.length - 8) + 9),
          (buf.length : Int) - 4 * (u32 buf (buf.length - 8) + 8),
          (buf.length : Int) - 4 * (u32 buf (buf.length - 8) + 7),
          (buf.length : Int) - 4 * (u32 buf (buf.length - 8) + 6),
          (buf.length : Int) - 4 * (u32 buf (buf.length - 8) + 5),
          (buf.length : Int) - 4 * (u32 buf (buf.length - 8) + 4)]) ∧
      (∀ q ∈ post, (0 ≤ q ∧ q ≤ (buf.length : Int) - 4) ∨
        (q = (buf.length : Int) - 4 * (u32 buf (buf.length - 8) + 10) ∧ q < 0)) ∧
      (∀ r, Program.ReadFrom k ⟨buf, 0, tr⟩ err = .outOfRange r →
        post = [(buf.length : Int) - 4 * (u32 buf (buf.length - 8) + 10)] ∧
          (buf.length : Int) - 4 * (u32 buf (buf.length - 8) + 10) < 0) := by
  rw [ReadFrom_eq_closedForm]
  unfold closedForm
  simp only [Int.toNat_zero, Nat.zero_add]
  rw [if_neg (by omega), if_neg (by omega)]
  by_cases c3 : u32 buf 0 ≠ k.kMagicProgramFile
  · rw [if_pos c3]
    refine ⟨[0], [], by simp [Outcome.reader], Or.inl rfl, ?_, Or.inl rfl, by simp,
      fun r h => by simp at h⟩
    intro q hq
    simp only [List.mem_singleton] at hq
    omega
  rw [if_neg c3, if_neg (by omega)]
  by_cases c5 : u32 buf 4 < k.kMinSupportedKernelFormatVersion ∨
      u32 buf 4 > k.kMaxSupportedKernelFormatVersion
  · rw [if_pos c5]
    refine ⟨[0, 4], [], by simp [Outcome.reader], Or.inr (Or.inl rfl), ?_, Or.inl rfl,
      by simp, fun r h => by simp at h⟩
    intro q hq
    simp only [List.mem_cons, List.mem_singleton, List.not_mem_nil, or_false] at hq
    omega
  rw [if_neg c5]
  by_cases c6 : buf.length < u32 buf (buf.length - 4)
  · rw [if_pos c6]
    refine ⟨[0, 4, (buf.length : Int) - 4], [], by simp [Outcome.reader],
      Or.inr (Or.inr (Or.inl rfl)), ?_, Or.inl rfl, by simp, fun r h => by simp at h⟩
    intro q hq
    simp only [List.mem_cons, List.mem_singleton, List.not_mem_nil, or_false] at hq
    omega
  rw [if_neg c6]
  by_cases c7 : buf.length ≤ u32 buf (buf.length - 4) + 4
  · rw [if_pos c7]
    obtain ⟨post, hreads, hpost, hin⟩ := tailClosedForm_reads
      { Program.new with
        binary_version_ := u32 buf 4, kernel_data_ := buf, single_program_ := true }
      buf (tr ++ [0, 0 + 4, (buf.length : Int) - 4]) err
    refine ⟨[0, 4, (buf.length : Int) - 4, (buf.length : Int) - 8], post, ?_,
      Or.inr (Or.inr (Or.inr (Or.inl rfl))), ?_, Or.inr hpost, hin, fun r h => ?_⟩
    · rw [hreads]; simp
    · intro q hq
      simp only [List.mem_cons, List.mem_singleton, List.not_mem_nil, or_false] at hq
      omega
    · rw [h] at hreads
      unfold tailClosedForm at h
      simp only [] at h
      by_cases hidx : 4 * (u32 buf (buf.length - 8) + 10) ≤ buf.length
      · rw [if_pos hidx] at h
        exact absurd h (by simp)
      · rw [if_neg hidx] at h
        injection h with hr
        subst hr
        simp only [Outcome.reader, List.append_assoc, List.append_cancel_left_eq,
          List.singleton_append, List.cons.injEq, true_and] at hreads
        exact ⟨hreads.symm, by omega⟩
  rw [if_neg c7]
  by_cases c8 : buf.length - u32 buf (buf.length - 4) <
      u32 buf (buf.length - u32 buf (buf.length - 4) - 4)
  · rw [if_pos c8]
    refine ⟨[0, 4, (buf.length : Int) - 4,
        (buf.length : Int) - u32 buf (buf.length - 4) - 4], [], by simp [Outcome.reader],
      Or.inr (Or.inr (Or.inr (Or.inr ⟨by omega, Or.inl rfl⟩))), ?_, Or.inl rfl, by simp,
      fun r h => by simp at h⟩
    intro q hq
    simp only [List.mem_cons, List.mem_singleton, List.not_mem_nil, or_false] at hq
    omega
  rw [if_neg c8]
  obtain ⟨post, hreads, hpost, hin⟩ := tailClosedForm_reads
    { Program.new with
      binary_version_ := u32 buf 4, kernel_data_ := buf, single_program_ := false }
    buf (tr ++ [0, 0 + 4, (buf.length : Int) - 4,
      (buf.length : Int) - u32 buf (buf.length - 4) - 4]) err
  refine ⟨[0, 4, (buf.length : Int) - 4,
      (buf.length : Int) - u32 buf (buf.length - 4) - 4, (buf.length : Int) - 8], post, ?_,
    Or.inr (Or.inr (Or.inr (Or.inr ⟨by omega, Or.inr rfl⟩))), ?_, Or.inr hpost, hin,
    fun r h => ?_⟩
  · rw [hreads]; simp
  · intro q hq
    simp only [List.mem_cons, List.mem_singleton, List.not_mem_nil, or_false] at hq
    omega
  · rw [h] at hreads
    unfold tailClosedForm at h
    simp only [] at h
    by_cases hidx : 4 * (u32 buf (buf.length - 8) + 10) ≤ buf.length
    · rw [if_pos hidx] at h
      exact absurd h (by simp)
    · rw [if_neg hidx] at h
      injection h with hr
      subst hr
      simp only [Outcome.reader, List.append_assoc, List.append_cancel_left_eq,
        List.singleton_append, List.cons.injEq, true_and] at hreads
      exact ⟨hreads.symm, by omega⟩

/-- Witness of C15: the 60-byte sample container with `library_count = 6`, whose
decode ends with the out-of-range read at `-4`. -/
theorem C15_validation_and_walk_reads_in_bounds_witness :
    ∃ pre post : List Int,
      (Program.ReadFrom sampleConstants ⟨sampleContainer 18 1 6 60, 0, []⟩ none).reader.reads =
        [] ++ pre ++ post ∧
      (∀ q ∈ pre, 0 ≤ q ∧ q ≤ ((sampleContainer 18 1 6 60).length : Int) - 4) ∧
      (∀ r, Program.ReadFrom sampleConstants ⟨sampleContainer 18 1 6 60, 0, []⟩ none =
          .outOfRange r →
        post = [((sampleContainer 18 1 6 60).length : Int) -
          4 * (u32 (sampleContainer 18 1 6 60) ((sampleContainer 18 1 6 60).length - 8) + 10)]) :=
  let ⟨pre, post, h1, _, h3, _, _, h6⟩ :=
    C15_validation_and_walk_reads_in_bounds sampleConstants (sampleContainer 18 1 6 60) []
      none (by decide)
  ⟨pre, post, h1, h3, fun r h => (h6 r h).1⟩

/-- C16: header fields of a concatenated file come from the last sub-program,
unrebased. Let `ReadFrom` (cursor at 0) return a `Program` on `A` and on `B`,
each ending with a trailer equal to its own length (so each is decoded as a
single program). Then on `A ++ B` it returns a `Program` whose `binary_version`
is that of the decode of `A` and whose `library_count`, six table offsets and
`main_method_reference` are those of the decode of `B`, as read and not
shifted by the length of `A`. The reads are the magic and version of `A` at 0
and 4, the two trailers, and the tail index of `B`. The magic and version of
`B` are not validated: with
the first 8 bytes of `B` replaced by any other 8 bytes the decode still returns
a `Program`, with the same version, `single_program = false` and the same
`library_count`. -/
theorem C16_concatenated_header_fields (k : KernelConstants) (A B : List (Fin 256))
    (trA trB tr : List Int) (errA errB err eA eB : Option String) (pA pB : Program)
    (rA rB : Reader)
    (hA : Program.ReadFrom k ⟨A, 0, trA⟩ errA = .returned (some pA) eA rA)
    (hB : Program.ReadFrom k ⟨B, 0, trB⟩ errB = .returned (some pB) eB rB)
    (hAtrailer : u32 A (A.length - 4) = A.length)
    (hBtrailer : u32 B (B.length - 4) = B.length) :
    (∃ p r, Program.ReadFrom k ⟨A ++ B, 0, tr⟩ err = .returned (some p) err r ∧
        p.binary_version_ = pA.binary_version_ ∧
        p.library_count_ = pB.library_count_ ∧
        p.source_table_offset_ = pB.source_table_offset_ ∧
        p.name_table_offset_ = pB.name_table_offset_ ∧
        p.metadata_payloads_offset_ = pB.metadata_payloads_offset_ ∧
        p.metadata_mappings_offset_ = pB.metadata_mappings_offset_ ∧
        p.string_table_offset_ = pB.string_table_offset_ ∧
        p.constant_table_offset_ = pB.constant_table_offset_ ∧
        p.main_method_reference_ = pB.main_method_reference_ ∧
        r.reads =
          tr ++ [0, 4, ((A ++ B).length : Int) - 4, (A.length : Int) - 4,
            ((A ++ B).length : Int) - 8,
            ((A ++ B).length : Int) - 4 * (pB.library_count_ + 10),
            ((A ++ B).length : Int) - 4 * (pB.library_count_ + 9),
            ((A ++ B).length : Int) - 4 * (pB.library_count_ + 8),
            ((A ++ B).length : Int) - 4 * (pB.library_count_ + 7),
            ((A ++ B).length : Int) - 4 * (pB.library_count_ + 6),
            ((A ++ B).length : Int) - 4 * (pB.library_count_ + 5),
            ((A ++ B).length : Int) - 4 * (pB.library_count_ + 4)]) ∧
      (∀ hdr : List (Fin 256), hdr.length = 8 →
        ∃ p r, Program.ReadFrom k ⟨A ++ (hdr ++ B.drop 8), 0, tr⟩ err =
            .returned (some p) err r ∧
          p.binary_version_ = pA.binary_version_ ∧ p.single_program_ = false ∧
          p.library_count_ = pB.library_count_) := by
  obtain ⟨hA60, _, _, hAmagic, hAmin, hAmax, _, _, trwA, htailA⟩ :=
    ReadFrom_returned_program_inv k A 0 trA errA eA pA rA hA
  obtain ⟨hB60, _, _, _, _, _, _, _, trwB, htailB⟩ :=
    ReadFrom_returned_program_inv k B 0 trB errB eB pB rB hB
  simp only [Int.toNat_zero, Nat.zero_add] at hAmagic hAmin hAmax htailA
  obtain ⟨_, hAver, _⟩ := tailClosedForm_returned_fields _ A trwA errA eA pA rA htailA
  obtain ⟨hBidx, _, hBL, hB10, hB9, hB8, hB7, hB6, hB5, hB4⟩ :=
    tailClosedForm_returned_fields _ B trwB errB eB pB rB htailB
  simp only [] at hAver
  constructor
  · have key := ReadFrom_concat k A B tr err hA60 hB60 hAmagic hAmin hAmax hAtrailer
      hBtrailer hBidx
    refine ⟨_, _, key, hAver.symm, hBL.symm, hB10.symm, hB9.symm, hB8.symm, hB7.symm,
      hB6.symm, hB5.symm, hB4.symm, ?_⟩
    rw [hBL]
  · intro hdr hhdr
    have hlen : (hdr ++ B.drop 8).length = B.length := by
      rw [List.length_append, List.length_drop, hhdr]
      omega
    have htr : u32 (hdr ++ B.drop 8) ((hdr ++ B.drop 8).length - 4) =
        (hdr ++ B.drop 8).length := by
      rw [hlen, u32_replace_header hdr B _ hhdr (by omega)]
      exact hBtrailer
    have hL : u32 (hdr ++ B.drop 8) ((hdr ++ B.drop 8).length - 8) =
        u32 B (B.length - 8) := by
      rw [hlen, u32_replace_header hdr B _ hhdr (by omega)]
    have key := ReadFrom_concat k A (hdr ++ B.drop 8) tr err hA60 (by omega) hAmagic hAmin
      hAmax hAtrailer htr (by rw [hL, hlen]; exact hBidx)
    refine ⟨_, _, key, hAver.symm, rfl, ?_⟩
    simp only [hL, hBL]

/-- Witness of C16: two 60-byte sample containers with different main method
references. -/
theorem C16_concatenated_header_fields_witness :
    ∃ p r, Program.ReadFrom sampleConstants
        ⟨sampleContainer 18 1 0 60 ++ sampleContainer 19 5 0 60, 0, []⟩ none =
          .returned (some p) none r ∧
      p.binary_version_ = 18 ∧ p.main_method_reference_ = NameIndex.mk 4 :=
  let ⟨p, r, h, hv, _, _, _, _, _, _, _, hm, _⟩ :=
    (C16_concatenated_header_fields sampleConstants (sampleContainer 18 1 0 60)
      (sampleContainer 19 5 0 60) [] [] [] none none none none none
      { binary_version_ := 18
        kernel_data_ := sampleContainer 18 1 0 60
        single_program_ := true
        library_count_ := 0
        source_table_offset_ := 8
        name_table_offset_ := 9
        metadata_payloads_offset_ := 10
        metadata_mappings_offset_ := 11
        string_table_offset_ := 12
        constant_table_offset_ := 13
        main_method_reference_ := ⟨0⟩ }
      { binary_version_ := 19
        kernel_data_ := sampleContainer 19 5 0 60
        single_program_ := true
        library_count_ := 0
        source_table_offset_ := 8
        name_table_offset_ := 9
        metadata_payloads_offset_ := 10
        metadata_mappings_offset_ := 11
        string_table_offset_ := 12
        constant_table_offset_ := 13
        main_method_reference_ := ⟨4⟩ }
      ⟨sampleContainer 18 1 0 60, 48, [0, 4, 56, 52, 20, 24, 28, 32, 36, 40, 44]⟩
      ⟨sampleContainer 19 5 0 60, 48, [0, 4, 56, 52, 20, 24, 28, 32, 36, 40, 44]⟩
      (by rw [ReadFrom_eq_closedForm]; decide) (by rw [ReadFrom_eq_closedForm]; decide)
      (by decide) (by decide)).1
  ⟨p, r, h, hv, hm⟩

end dart.kernel
